import Mathlib

/-! # Carousel state machine: verification against the specification

Shallow embedding of `src/library/js/carousel.js` — the frame/tile state
machine (`normalizeState`, `updateState`, `animate`, `buildNavigation`,
`updateNavigation`, `nextFrame`, `prevFrame`, `jumpToFrame`, `reset`,
`toggleAria`) — together with theorems settling the specification claims.

Modelling conventions:
* JavaScript numbers flowing through the state are modelled as `Option Int`:
  `some n` is an ordinary integer, `none` stands for `NaN` and for the
  non-numeric sentinels (`false`, `undefined`) that the code stores in
  numeric or pointer fields (no verified claim distinguishes those
  sentinels from each other).  Every JS comparison involving `NaN` is
  false and arithmetic propagates it; the `j*` helpers reproduce this.
* Tiles are identified by their position id in the carousel's tile
  collection: `tileArr` is the id list `[0, …, N-1]` and a frame is a list
  of ids.  The source stores live references into one shared DOM
  collection, so ids plus the per-id `aria` table give the same sharing
  semantics.
* A tile's `className` is modelled as its list of class tokens; the
  single-token regex replacements of `toggleAria` become a first-occurrence
  token replacement.  The `tabindex` attribute is `none` while unset.
* DOM construction, width styling, event plumbing and the generic
  `x.publish` calls are presentation-only / out of scope per the spec; the
  `preFrameChange` / `postFrameChange` hook slots are modelled by a firing
  counter (`hookCount`), incremented exactly where the source would invoke
  a configured callback.
* Operations that can throw (reading a property of `undefined`) return an
  `Outcome` whose `err` flag records that a `TypeError` escaped; mutations
  performed before the throw persist, exactly as in the source where
  `this.state` is mutated in place.
-/

namespace Carousel

/-- JS strict equality `===` on numbers: `NaN === x` is false for every x. -/
def jeq : Option Int → Option Int → Bool
  | some a, some b => a == b
  | _, _ => false

/-- JS `<` on numbers: false when either side is `NaN`. -/
def jlt : Option Int → Option Int → Bool
  | some a, some b => decide (a < b)
  | _, _ => false

/-- JS `>` on numbers: false when either side is `NaN`. -/
def jgt : Option Int → Option Int → Bool
  | some a, some b => decide (b < a)
  | _, _ => false

/-- JS `<=` on numbers: false when either side is `NaN`. -/
def jle : Option Int → Option Int → Bool
  | some a, some b => decide (a ≤ b)
  | _, _ => false

/-- JS `>=` on numbers: false when either side is `NaN`. -/
def jge : Option Int → Option Int → Bool
  | some a, some b => decide (b ≤ a)
  | _, _ => false

/-- JS `+` on numbers: `NaN` propagates. -/
def jadd : Option Int → Option Int → Option Int
  | some a, some b => some (a + b)
  | _, _ => none

/-- JS `-` on numbers: `NaN` propagates. -/
def jsub : Option Int → Option Int → Option Int
  | some a, some b => some (a - b)
  | _, _ => none

/-- JS `*` on numbers: `NaN` propagates. -/
def jmul : Option Int → Option Int → Option Int
  | some a, some b => some (a * b)
  | _, _ => none

/-- JS truthiness of a number: `0` and `NaN` are falsy. -/
def jtruthy : Option Int → Bool
  | some a => a != 0
  | none => false

/-- JS indexing `arr[i]` with a numeric index: any out-of-range, negative or
`NaN` index yields `undefined` (`none`). -/
def jindex {α : Type} (l : List α) : Option Int → Option α
  | none => none
  | some k => if k < 0 then none else l.get? k.toNat

/-- Math.ceil of a JS division `a / b`.  `NaN` propagates; division by zero
(JS `±Infinity` / `NaN`) is also mapped to `none` — no verified claim ever
divides by zero. -/
def jceilDiv : Option Int → Option Int → Option Int
  | some a, some b => if b = 0 then none else some (-(Int.fdiv (-a) b))
  | _, _ => none

/-- Normalize one bound of `Array.prototype.slice`: `NaN` coerces to `0`,
a negative value counts from the end of the array, and the result is
clamped into `[0, len]`. -/
def sliceBound (len : Nat) : Option Int → Nat
  | none => 0
  | some k => if k < 0 then ((len : Int) + k).toNat else min k.toNat len

/-- The effect of `Array.prototype.slice.call(l, s, e)`. -/
def jslice (l : List Nat) (s e : Option Int) : List Nat :=
  (l.take (sliceBound l.length e)).drop (sliceBound l.length s)

/-- Carousel increment mode (`options.incrementMode`). -/
inductive Mode
  | frame
  | tile
deriving DecidableEq

/-- Test `options.incrementMode === 'frame'`. -/
def modeIsFrame : Mode → Bool
  | .frame => true
  | .tile => false

/-- Test `options.incrementMode === 'tile'`. -/
def modeIsTile : Mode → Bool
  | .frame => false
  | .tile => true

/-- The recognized configuration options relevant to the state machine.
`increment` is the value after `setup`'s `parseInt` coercion, hence possibly
`NaN` (`none`). -/
structure Options where
  increment : Option Int
  incrementMode : Mode
deriving DecidableEq

/-- Mutable per-tile DOM state the state machine reads and writes: the class
token list (`className` split on whitespace) and the `tabindex` attribute
(`none` while the attribute is unset). -/
structure TileState where
  classes : List String
  tabIdx : Option Int := none
deriving DecidableEq

/-- Replace the first occurrence of a class token: the effect of a
JS `String.replace` with the single-token, non-global regexes
`/\sstate-hidden/` and `/\sstate-visible/` on a well-formed
space-separated class string. -/
def replaceFirst (old new : String) : List String → List String
  | [] => []
  | c :: cs => if c = old then new :: cs else c :: replaceFirst old new cs

/-- Body of the `toggleAria` loop for one item (carousel.js lines 641-659):
append the optional `initClass`, skip the item entirely (`continue`) when
its classes contain the spacer marker, otherwise swap the visibility class
(`add = true` is the `'add'`/hide operation, replacing `state-visible` by
`state-hidden`; `'remove'`/show is the converse), and — when the
`hasAriaInited` cache flag was not yet set — additionally append
`state-hidden` and set `tabindex` to `-1`. -/
def toggleItem (add : Bool) (initClass : List String) (inited : Bool)
    (t : TileState) : TileState :=
  let classes := t.classes ++ initClass
  if "carousel-tile-spacer" ∈ classes then t
  else
    let classes :=
      if add then replaceFirst "state-visible" "state-hidden" classes
      else replaceFirst "state-hidden" "state-visible" classes
    if inited then { t with classes := classes }
    else { t with classes := classes ++ ["state-hidden"], tabIdx := some (-1) }

/-- Iteration of the `toggleAria` loop over the item collection.  `items` is
the list of tile ids the call operates on (in the source these are lists of
live tile references — always duplicate-free views of the one collection —
so iterating the items and mapping over the table coincide); `n` is the id
of the head of `aria`. -/
def toggleFrom (items : List Nat) (add : Bool) (initClass : List String)
    (inited : Bool) : Nat → List TileState → List TileState
  | _, [] => []
  | n, t :: ts =>
      (if n ∈ items then toggleItem add initClass inited t else t)
        :: toggleFrom items add initClass inited (n + 1) ts

/-- The carousel state record built by `normalizeState` (lines 277-309 and
339-351) and updated in place by `updateState` (lines 384-398). -/
structure CState where
  index : Option Int
  offset : Option Int
  spacers : Int
  prevIndex : Option Int
  tileArr : List Nat
  origTileLength : Int
  curTileLength : Option Int
  tileWidth : Int
  tileHeight : Int
  curTile : Option Nat
  prevTile : Option Nat
  frameArr : List (List Nat)
  origFrameLength : Option Int
  curFrameLength : Option Int
  frameWidth : Option Int
  curFrame : Option (List Nat)
  prevFrame : Option (List Nat)
  frameIndex : Option Int
  frameNumber : Option Int
  prevFrameIndex : Option Int
  prevFrameNumber : Option Int
  tileDelta : Option Int
deriving DecidableEq

/-- One carousel instance: options, the state record, the per-tile table
(indexed by tile id, modelling the live DOM tiles), the `hasAriaInited`
cache flag, the `disabled` properties of the prev/next buttons, and the
count of pre/post frame-change hook firings. -/
structure Car where
  options : Options
  state : CState
  aria : List TileState
  hasAriaInited : Bool
  prevBtnDisabled : Bool
  nextBtnDisabled : Bool
  hookCount : Nat
deriving DecidableEq

/-- Result of an operation that can throw: the carousel after all mutations
that were performed (they persist, as in the source), plus whether a
`TypeError` escaped to the caller. -/
structure Outcome where
  car : Car
  err : Bool
deriving DecidableEq

/-- Instance-level `toggleAria` (lines 623-663): the `hasAriaInited` cache is
read once before the loop and set to `true` after it. -/
def toggleAriaC (c : Car) (items : List Nat) (add : Bool)
    (initClass : List String) : Car :=
  { c with
      aria := toggleFrom items add initClass c.hasAriaInited 0 c.aria
      hasAriaInited := true }

/-- Nat ceiling division `⌈n / i⌉` for `i > 0`. -/
def ceilN (n i : Nat) : Nat := (n + i - 1) / i

/-- Number of iterations of the frame-building loop (lines 318-337): `sec`
runs while `sec < tileArr.length / increment`, a JS rational bound.  For a
positive increment this is `⌈N / I⌉`; for a negative or `NaN` increment the
bound is non-positive (or `NaN`, comparing false) and the body never runs.
For `increment = 0` and `N > 0` the source loop does not terminate; no
claim touches a zero increment and the model is unused there. -/
def frameIter (n : Nat) : Option Int → Nat
  | some i => if 0 < i then ceilN n i.toNat else 0
  | none => 0

/-- The frame-building loop: frame `sec` is
`slice(increment * sec, increment * (sec + 1))` of the tile id list. -/
def buildFrames (tileArr : List Nat) (inc : Option Int) : List (List Nat) :=
  (List.range (frameIter tileArr.length inc)).map fun (sec : Nat) =>
    jslice tileArr (jmul inc (some (sec : Int))) (jmul inc (some ((sec : Int) + 1)))

/-- Function `normalizeState` (lines 256-365).  `w`/`h` are the externally
measured outer width/height of the first tile (the spec treats layout
values as externally supplied scalars).  When there is no first tile
(`N = 0`), `outerWidth(firstTile)` dereferences `undefined` and throws; the
`toggleAria(state.curFrame, …)` call likewise throws when
`frameArr[frameIndex]` is `undefined`.  The presentation-only steps — the
per-tile width style and the re-append loop that cycles the live collection
back into its original order — change nothing the state machine reads and
are omitted. -/
def normalizeState (opts : Options) (tiles0 : List TileState) (w h : Int) :
    Except Unit Car :=
  match tiles0.get? 0 with
  | none => .error ()   -- outerWidth(firstTile) with firstTile undefined
  | some _ =>
    let n := tiles0.length
    let tileArr := List.range n
    let inc := opts.increment
    let frameLength := jceilDiv (some n) inc
    let c0 : Car :=
      { options := opts
        state :=
          { index := some 0
            offset := some 0
            spacers := 0
            prevIndex := none        -- `false`
            tileArr := tileArr
            origTileLength := n
            curTileLength := some n
            tileWidth := w
            tileHeight := h
            curTile := none          -- `false`
            prevTile := none         -- `false`
            frameArr := []
            origFrameLength := frameLength
            curFrameLength := frameLength
            frameWidth := jmul inc (some w)
            curFrame := some []
            prevFrame := some []
            frameIndex := some 0
            frameNumber := some 1
            prevFrameIndex := some 0
            prevFrameNumber := some 1
            tileDelta := none }      -- assigned below (line 351)
        aria := tiles0
        hasAriaInited := false
        prevBtnDisabled := false
        nextBtnDisabled := false
        hookCount := 0 }
    -- this.toggleAria( tileArr, 'add', 'carousel-tile' )
    let c1 := toggleAriaC c0 tileArr true ["carousel-tile"]
    let frames := buildFrames tileArr inc
    -- reassignments of lines 339-351
    let index : Option Int := some 0
    let curFrameLength := jceilDiv (some n) inc
    let frameIndex := jceilDiv index inc
    let curFrame := jindex frames frameIndex
    let st :=
      { c1.state with
          index := index
          offset := if jtruthy index then jmul inc (some w) else some 0
          curTile := jindex tileArr index
          curTileLength := some n
          curFrameLength := curFrameLength
          frameArr := frames
          frameIndex := frameIndex
          frameNumber := jadd frameIndex (some 1)
          prevFrameIndex := frameIndex
          prevFrameNumber := jadd frameIndex (some 1)
          curFrame := curFrame
          tileDelta := jsub (jmul inc curFrameLength) (some n) }
    let c2 := { c1 with state := st }
    -- this.toggleAria( state.curFrame, 'remove' ): throws when curFrame is
    -- undefined (reading `.length` of undefined)
    match curFrame with
    | none => .error ()
    | some cf => .ok (toggleAriaC c2 cf false [])

/-- The `disabled` computation of `buildNavigation` (lines 476-484): fresh
buttons start enabled; both are disabled when
`curTileLength <= increment`; the prev button is additionally disabled when
`index === 0`. -/
def buildNavigation (c : Car) : Car :=
  let both := jle c.state.curTileLength c.options.increment
  { c with
      prevBtnDisabled := both || jeq c.state.index (some 0)
      nextBtnDisabled := both }

/-- Function `init` (lines 180-229): normalize the state, then build the
navigation controls. -/
def initCar (opts : Options) (tiles0 : List TileState) (w h : Int) :
    Except Unit Car :=
  (normalizeState opts tiles0 w h).map buildNavigation

/-- Function `updateNavigation` (lines 520-535). -/
def updateNavigation (c : Car) : Car :=
  { c with
      prevBtnDisabled := jeq c.state.index (some 0)
      nextBtnDisabled :=
        jge (jadd c.state.index c.options.increment) c.state.curTileLength }

/-- Function `animate` (lines 405-437): fire the pre-frame-change hook, show
all tiles, update the navigation, hide all tiles, show the committed frame,
focus the current tile, fire the post-frame-change hook.  Reading
`state.curFrame.length` when `curFrame` is `undefined`, or calling
`state.curTile.focus()` when `curTile` is `undefined`, throws a
`TypeError`; mutations already performed persist.  The unused `isFirst` /
`isLast` locals and the `state-busy` class juggling are presentation-only
and omitted. -/
def animate (c : Car) : Outcome :=
  let c := { c with hookCount := c.hookCount + 1 }    -- preFrameChange slot
  let c := toggleAriaC c c.state.tileArr false []     -- show all tiles
  let c := updateNavigation c
  let c := toggleAriaC c c.state.tileArr true []      -- hide all tiles
  match c.state.curFrame with
  | none => ⟨c, true⟩                                 -- undefined.length
  | some cf =>
    let c := toggleAriaC c cf false []                -- show current frame
    match c.state.curTile with
    | none => ⟨c, true⟩                               -- curTile.focus()
    | some _ => ⟨{ c with hookCount := c.hookCount + 1 }, false⟩

/-- Function `updateState` (lines 367-403).  The candidate index is clamped
by `index > curTileLength - increment ? curTileLength - increment
: index < 0 ? 0 : index` — the upper clamp is applied first, so when
`curTileLength < increment` it can commit the negative value
`curTileLength - increment` without ever reaching the lower bound.  The
no-op ternary `isLastFrame ? index : index` of line 392 is embedded as
`index`. -/
def updateState (c : Car) (cand : Option Int) (anim : Bool) : Outcome :=
  let s := c.state
  let inc := c.options.increment
  let limit := jsub s.curTileLength inc
  let index :=
    if jgt cand limit then limit
    else if jlt cand (some 0) then some 0
    else cand
  let frameIndex := jceilDiv index inc
  let isLastFrame := jeq index limit
  let s' :=
    { s with
        index := index
        offset := jmul (some s.tileWidth) index
        prevIndex := s.index
        prevTile := s.curTile
        curTile :=
          if isLastFrame && jtruthy s.tileDelta
              && modeIsFrame c.options.incrementMode
          then jindex s.tileArr (jadd index s.tileDelta)
          else jindex s.tileArr index
        curFrame := some (jslice s.tileArr index (jadd inc index))
        prevFrame := s.curFrame
        frameIndex := frameIndex
        frameNumber := jadd frameIndex (some 1)
        prevFrameIndex := s.frameIndex
        prevFrameNumber := s.frameNumber }
  let c' := { c with state := s' }
  if anim then animate c' else ⟨c', false⟩

/-- Function `nextFrame` (lines 570-585): candidate is `index + 1` in tile
mode, `index + increment` in frame mode. -/
def nextFrame (c : Car) : Outcome :=
  let cand :=
    if modeIsTile c.options.incrementMode then jadd c.state.index (some 1)
    else jadd c.state.index c.options.increment
  updateState c cand true

/-- Function `prevFrame` (lines 553-568): candidate is `index - 1` in tile
mode, `index - increment` in frame mode. -/
def prevFrame (c : Car) : Outcome :=
  let cand :=
    if modeIsTile c.options.incrementMode then jsub c.state.index (some 1)
    else jsub c.state.index c.options.increment
  updateState c cand true

/-- Function `jumpToFrame` (lines 587-605).  The argument goes through
`parseInt(frame, 10)` first; `frameArg = none` models any argument that
does not parse to an integer (`undefined`, a non-numeric string, `NaN`),
`frameArg = some k` an argument parsing to the integer `k`. -/
def jumpToFrame (c : Car) (frameArg : Option Int) : Outcome :=
  let inc := c.options.increment
  let index0 := jsub (jmul frameArg inc) inc
  let index := if jlt index0 (some 0) then some 0 else index0
  if jeq index c.state.index || jgt frameArg c.state.curFrameLength then
    ⟨c, false⟩   -- strict no-op: no mutation, no hooks
  else updateState c index true

/-- Function `reset` (lines 607-621): always commits candidate `0`. -/
def reset (c : Car) : Outcome := updateState c (some 0) true

/-- Effect of `parseInt(v, 10)` on a finite decimal JS number: the number is
stringified and reparsed up to the decimal point, i.e. truncated toward
zero.  (Numbers that stringify in exponent form parse differently; no claim
uses such a value.) -/
def parseIntNum (q : ℚ) : Int := Int.tdiv q.num (q.den : Int)

/-- Function `setup` (lines 162-178) followed by `init`: the recognized
integer options are coerced with `parseInt` — no validation of any kind is
performed — and `init` then normalizes the state and builds the
navigation.  The increment option is modelled as a finite JS number. -/
def setupCar (incOpt : ℚ) (m : Mode) (tiles0 : List TileState) (w h : Int) :
    Except Unit Car :=
  initCar { increment := some (parseIntNum incOpt), incrementMode := m }
    tiles0 w h

/-- Check whether a setup/normalization completed without throwing. -/
def isOkE (e : Except Unit Car) : Bool :=
  match e with
  | .ok _ => true
  | .error _ => false

/-- A raw content tile as delivered by the page: no carousel classes yet,
`tabindex` unset. -/
def cleanTile : TileState := { classes := [], tabIdx := none }

/-- A raw tile list of length `n`. -/
def cleanTiles (n : Nat) : List TileState := List.replicate n cleanTile

/-- Placeholder instance, only used to make `fromOk` total; every use of
`fromOk` in a theorem is on an `Except.ok` value. -/
def dummyCar : Car :=
  { options := { increment := some 1, incrementMode := .frame }
    state :=
      { index := some 0, offset := some 0, spacers := 0, prevIndex := none
        tileArr := [], origTileLength := 0, curTileLength := some 0
        tileWidth := 0, tileHeight := 0, curTile := none, prevTile := none
        frameArr := [], origFrameLength := some 0, curFrameLength := some 0
        frameWidth := some 0, curFrame := some [], prevFrame := some []
        frameIndex := some 0, frameNumber := some 1, prevFrameIndex := some 0
        prevFrameNumber := some 1, tileDelta := some 0 }
    aria := [], hasAriaInited := false
    prevBtnDisabled := false, nextBtnDisabled := false, hookCount := 0 }

/-- Extract the carousel from a successful setup. -/
def fromOk (e : Except Unit Car) : Car :=
  match e with
  | .ok c => c
  | .error _ => dummyCar

/-- Derived form of the index clamp of `updateState` (lines 375-377),
definitionally equal to its `index` local. -/
def committedIndex (c : Car) (cand : Option Int) : Option Int :=
  let limit := jsub c.state.curTileLength c.options.increment
  if jgt cand limit then limit
  else if jlt cand (some 0) then some 0
  else cand

/-- Derived form of the state record committed by `updateState` (lines
384-398), definitionally equal to its `s'` local. -/
def committedState (c : Car) (cand : Option Int) : CState :=
  let s := c.state
  let inc := c.options.increment
  let limit := jsub s.curTileLength inc
  let index := committedIndex c cand
  let frameIndex := jceilDiv index inc
  let isLastFrame := jeq index limit
  { s with
      index := index
      offset := jmul (some s.tileWidth) index
      prevIndex := s.index
      prevTile := s.curTile
      curTile :=
        if isLastFrame && jtruthy s.tileDelta
            && modeIsFrame c.options.incrementMode
        then jindex s.tileArr (jadd index s.tileDelta)
        else jindex s.tileArr index
      curFrame := some (jslice s.tileArr index (jadd inc index))
      prevFrame := s.curFrame
      frameIndex := frameIndex
      frameNumber := jadd frameIndex (some 1)
      prevFrameIndex := s.frameIndex
      prevFrameNumber := s.frameNumber }

/-- The carousel right after the in-place `x.extend(this.state, …)` commit
of `updateState`, before `animate` runs. -/
def commitCar (c : Car) (cand : Option Int) : Car :=
  { c with state := committedState c cand }

/-- Structural well-formedness of a carousel with `n` tiles and increment
`i`, as established by `initCar` and untouched by every commit (these
fields are assigned by `normalizeState` only). -/
structure Shape (n i : Nat) (c : Car) : Prop where
  inc : c.options.increment = some (i : Int)
  len : c.state.curTileLength = some (n : Int)
  arr : c.state.tileArr = List.range n
  fcl : c.state.curFrameLength = some ((ceilN n i : Nat) : Int)
  delta : c.state.tileDelta = some ((i : Int) * (ceilN n i : Nat) - (n : Int))

/-- A tile currently carrying the `state-visible` marker class. -/
def visibleT (t : TileState) : Prop := "state-visible" ∈ t.classes

/-- A tile currently carrying the `state-hidden` marker class. -/
def hiddenT (t : TileState) : Prop := "state-hidden" ∈ t.classes

/-- A raw tile as handed over by the page: none of the marker classes the
toggler manages, and not a structural spacer. -/
def clsClean (t : TileState) : Prop :=
  "state-visible" ∉ t.classes ∧ "state-hidden" ∉ t.classes ∧
    "carousel-tile-spacer" ∉ t.classes

/-- Well-formed marking of one managed tile: its classes end in exactly one
of the two visibility markers (no marker occurs earlier), it is not a
spacer, and its `tabindex` carries the unfocusable value `-1` stamped at
the first normalization. -/
def TileOk (t : TileState) : Prop :=
  ∃ pre, "state-visible" ∉ pre ∧ "state-hidden" ∉ pre ∧
    "carousel-tile-spacer" ∉ pre ∧
    (t.classes = pre ++ ["state-visible"] ∨ t.classes = pre ++ ["state-hidden"]) ∧
    t.tabIdx = some (-1)

/-- Invariant tying the aria table to the structure: every managed tile is
well-formed and the first-run initialization already happened. -/
def AriaInv (n i : Nat) (c : Car) : Prop :=
  Shape n i c ∧ c.hasAriaInited = true ∧ c.aria.length = n ∧
    ∀ j t, c.aria.get? j = some t → TileOk t

/-- The concrete 10-tile, increment-3, frame-mode carousel of the spec's
scenario, right after initialization. -/
def carT10 : Car :=
  fromOk (initCar ⟨some 3, Mode.frame⟩ (cleanTiles 10) 5 5)

/-- Scenario carousel after one `nextFrame` call. -/
def carT10a : Car := (nextFrame carT10).car

/-- Scenario carousel after two `nextFrame` calls. -/
def carT10b : Car := (nextFrame carT10a).car

/-- Scenario carousel after three `nextFrame` calls. -/
def carT10c : Car := (nextFrame carT10b).car

/-- A one-tile carousel with increment 2 (`N < I`), after initialization. -/
def carSmall : Car :=
  fromOk (initCar ⟨some 2, Mode.frame⟩ (cleanTiles 1) 5 5)

/-- A three-tile, increment-1, frame-mode carousel, after initialization. -/
def carT3 : Car :=
  fromOk (initCar ⟨some 1, Mode.frame⟩ (cleanTiles 3) 5 5)

/- ------------------------------------------------------------------ -/
/- Basic computation lemmas for the JS helpers.                        -/
/- ------------------------------------------------------------------ -/

@[simp] theorem jeq_none_left (x : Option Int) : jeq none x = false := by
  cases x <;> rfl

@[simp] theorem jeq_none_right (x : Option Int) : jeq x none = false := by
  cases x <;> rfl

@[simp] theorem jeq_some (a b : Int) : jeq (some a) (some b) = (a == b) := rfl

@[simp] theorem jlt_none_left (x : Option Int) : jlt none x = false := by
  cases x <;> rfl

@[simp] theorem jlt_none_right (x : Option Int) : jlt x none = false := by
  cases x <;> rfl

@[simp] theorem jlt_some (a b : Int) : jlt (some a) (some b) = decide (a < b) := rfl

@[simp] theorem jgt_none_left (x : Option Int) : jgt none x = false := by
  cases x <;> rfl

@[simp] theorem jgt_none_right (x : Option Int) : jgt x none = false := by
  cases x <;> rfl

@[simp] theorem jgt_some (a b : Int) : jgt (some a) (some b) = decide (b < a) := rfl

@[simp] theorem jle_some (a b : Int) : jle (some a) (some b) = decide (a ≤ b) := rfl

@[simp] theorem jge_some (a b : Int) : jge (some a) (some b) = decide (b ≤ a) := rfl

@[simp] theorem jge_none_left (x : Option Int) : jge none x = false := by
  cases x <;> rfl

@[simp] theorem jge_none_right (x : Option Int) : jge x none = false := by
  cases x <;> rfl

@[simp] theorem jadd_some (a b : Int) : jadd (some a) (some b) = some (a + b) := rfl

@[simp] theorem jadd_none_left (x : Option Int) : jadd none x = none := by
  cases x <;> rfl

@[simp] theorem jadd_none_right (x : Option Int) : jadd x none = none := by
  cases x <;> rfl

@[simp] theorem jsub_some (a b : Int) : jsub (some a) (some b) = some (a - b) := rfl

@[simp] theorem jsub_none_left (x : Option Int) : jsub none x = none := by
  cases x <;> rfl

@[simp] theorem jsub_none_right (x : Option Int) : jsub x none = none := by
  cases x <;> rfl

@[simp] theorem jmul_some (a b : Int) : jmul (some a) (some b) = some (a * b) := rfl

@[simp] theorem jmul_none_left (x : Option Int) : jmul none x = none := by
  cases x <;> rfl

@[simp] theorem jmul_none_right (x : Option Int) : jmul x none = none := by
  cases x <;> rfl

@[simp] theorem jtruthy_some (a : Int) : jtruthy (some a) = (a != 0) := rfl

@[simp] theorem jtruthy_none : jtruthy none = false := rfl

@[simp] theorem jindex_none {α : Type} (l : List α) : jindex l none = none := rfl

@[simp] theorem jceilDiv_none_left (x : Option Int) : jceilDiv none x = none := by
  cases x <;> rfl

@[simp] theorem jceilDiv_none_right (x : Option Int) : jceilDiv x none = none := by
  cases x <;> rfl

theorem jindex_range {n : Nat} {k : Int} (h0 : 0 ≤ k) (h1 : k < (n : Int)) :
    jindex (List.range n) (some k) = some k.toNat := by
  show (if k < 0 then none else (List.range n).get? k.toNat) = some k.toNat
  rw [if_neg (not_lt.mpr h0), List.get?_range (by omega)]

/- ------------------------------------------------------------------ -/
/- Ceiling-division arithmetic.                                        -/
/- ------------------------------------------------------------------ -/

theorem ceilN_succ (a i : Nat) (hi : 0 < i) : ceilN (a + 1) i = a / i + 1 := by
  unfold ceilN
  have h : a + 1 + i - 1 = a + i := by omega
  rw [h, Nat.add_div_right _ hi]

theorem ceilN_zero (i : Nat) (hi : 0 < i) : ceilN 0 i = 0 := by
  unfold ceilN
  exact Nat.div_eq_of_lt (by omega)

theorem ceilN_le (n i : Nat) (hi : 0 < i) : n ≤ i * ceilN n i := by
  cases n with
  | zero => exact Nat.zero_le _
  | succ a =>
    rw [ceilN_succ a i hi, Nat.mul_add, Nat.mul_one]
    have h1 := Nat.div_add_mod a i
    have h2 : a % i < i := Nat.mod_lt _ hi
    set m := i * (a / i) with hm
    set r := a % i with hr
    omega

theorem ceilN_lt (n i : Nat) (hi : 0 < i) : i * ceilN n i < n + i := by
  cases n with
  | zero => simpa [ceilN_zero i hi] using hi
  | succ a =>
    rw [ceilN_succ a i hi, Nat.mul_add, Nat.mul_one]
    have h1 : i * (a / i) ≤ a := by rw [Nat.mul_comm]; exact Nat.div_mul_le_self a i
    set m := i * (a / i) with hm
    omega

theorem ceilN_pos (n i : Nat) (hn : 0 < n) (hi : 0 < i) : 0 < ceilN n i := by
  cases n with
  | zero => omega
  | succ a => rw [ceilN_succ a i hi]; exact Nat.succ_pos _

theorem ceil_eq_of_bounds {b q r : Int} (hb : 0 < b) (a : Int)
    (h1 : a ≤ b * q) (h2 : b * q < a + b)
    (h3 : a ≤ b * r) (h4 : b * r < a + b) : q = r := by
  have h5 : b * (r - 1) < b * q := by rw [mul_sub, mul_one]; linarith
  have h6 : b * (q - 1) < b * r := by rw [mul_sub, mul_one]; linarith
  have h7 : r - 1 < q := lt_of_mul_lt_mul_left h5 (le_of_lt hb)
  have h8 : q - 1 < r := lt_of_mul_lt_mul_left h6 (le_of_lt hb)
  omega

theorem jceilDiv_natCast (n i : Nat) (hi : 0 < i) :
    jceilDiv (some (n : Int)) (some (i : Int)) = some ((ceilN n i : Nat) : Int) := by
  have hipos : (0 : Int) < (i : Int) := by exact_mod_cast hi
  show (if (i : Int) = 0 then none
        else some (-(Int.fdiv (-(n : Int)) (i : Int)))) = _
  rw [if_neg hipos.ne', Int.fdiv_eq_ediv _ (le_of_lt hipos)]
  congr 1
  have hd := Int.ediv_add_emod (-(n : Int)) (i : Int)
  have h0 := Int.emod_nonneg (-(n : Int)) hipos.ne'
  have h1 := Int.emod_lt_of_pos (-(n : Int)) hipos
  have c1 : (n : Int) ≤ (i : Int) * ((ceilN n i : Nat) : Int) := by
    exact_mod_cast ceilN_le n i hi
  have c2 : (i : Int) * ((ceilN n i : Nat) : Int) < (n : Int) + i := by
    exact_mod_cast ceilN_lt n i hi
  have b1 : (n : Int) ≤ (i : Int) * (-(-(n : Int) / i)) := by
    rw [mul_neg]; linarith
  have b2 : (i : Int) * (-(-(n : Int) / i)) < (n : Int) + i := by
    rw [mul_neg]; linarith
  exact ceil_eq_of_bounds hipos (n : Int) b1 b2 c1 c2

theorem jceilDiv_zero_left (i : Nat) (hi : 0 < i) :
    jceilDiv (some 0) (some (i : Int)) = some 0 := by
  have hipos : (0 : Int) < (i : Int) := by exact_mod_cast hi
  show (if (i : Int) = 0 then none
        else some (-(Int.fdiv (-(0 : Int)) (i : Int)))) = some 0
  rw [if_neg hipos.ne']
  simp [Int.zero_fdiv]

/- ------------------------------------------------------------------ -/
/- Record-level equations for `updateState` and `animate`.             -/
/- ------------------------------------------------------------------ -/

theorem updateState_eq (c : Car) (cand : Option Int) (anim : Bool) :
    updateState c cand anim =
      if anim then animate (commitCar c cand) else ⟨commitCar c cand, false⟩ := rfl

@[simp] theorem commitCar_options (c : Car) (cand : Option Int) :
    (commitCar c cand).options = c.options := rfl

@[simp] theorem commitCar_aria (c : Car) (cand : Option Int) :
    (commitCar c cand).aria = c.aria := rfl

@[simp] theorem commitCar_hasAriaInited (c : Car) (cand : Option Int) :
    (commitCar c cand).hasAriaInited = c.hasAriaInited := rfl

@[simp] theorem commitCar_hookCount (c : Car) (cand : Option Int) :
    (commitCar c cand).hookCount = c.hookCount := rfl

@[simp] theorem commitCar_state (c : Car) (cand : Option Int) :
    (commitCar c cand).state = committedState c cand := rfl

@[simp] theorem committedState_index (c : Car) (cand : Option Int) :
    (committedState c cand).index = committedIndex c cand := rfl

@[simp] theorem committedState_prevIndex (c : Car) (cand : Option Int) :
    (committedState c cand).prevIndex = c.state.index := rfl

@[simp] theorem committedState_prevTile (c : Car) (cand : Option Int) :
    (committedState c cand).prevTile = c.state.curTile := rfl

@[simp] theorem committedState_prevFrame (c : Car) (cand : Option Int) :
    (committedState c cand).prevFrame = c.state.curFrame := rfl

@[simp] theorem committedState_curTileLength (c : Car) (cand : Option Int) :
    (committedState c cand).curTileLength = c.state.curTileLength := rfl

@[simp] theorem committedState_tileArr (c : Car) (cand : Option Int) :
    (committedState c cand).tileArr = c.state.tileArr := rfl

@[simp] theorem committedState_curFrameLength (c : Car) (cand : Option Int) :
    (committedState c cand).curFrameLength = c.state.curFrameLength := rfl

@[simp] theorem committedState_tileDelta (c : Car) (cand : Option Int) :
    (committedState c cand).tileDelta = c.state.tileDelta := rfl

@[simp] theorem committedState_frameArr (c : Car) (cand : Option Int) :
    (committedState c cand).frameArr = c.state.frameArr := rfl

@[simp] theorem committedState_curFrame (c : Car) (cand : Option Int) :
    (committedState c cand).curFrame =
      some (jslice c.state.tileArr (committedIndex c cand)
        (jadd c.options.increment (committedIndex c cand))) := rfl

theorem committedState_curTile (c : Car) (cand : Option Int) :
    (committedState c cand).curTile =
      if jeq (committedIndex c cand)
            (jsub c.state.curTileLength c.options.increment)
          && jtruthy c.state.tileDelta
          && modeIsFrame c.options.incrementMode
      then jindex c.state.tileArr
        (jadd (committedIndex c cand) c.state.tileDelta)
      else jindex c.state.tileArr (committedIndex c cand) := rfl

theorem animate_mk (opts : Options) (st : CState) (aria : List TileState)
    (hai pb nb : Bool) (hk : Nat) (cf : List Nat) (t : Nat)
    (hcf : st.curFrame = some cf) (hct : st.curTile = some t) :
    animate ⟨opts, st, aria, hai, pb, nb, hk⟩ =
      ⟨⟨opts, st,
        toggleFrom cf false [] true 0
          (toggleFrom st.tileArr true [] true 0
            (toggleFrom st.tileArr false [] hai 0 aria)),
        true,
        jeq st.index (some 0),
        jge (jadd st.index opts.increment) st.curTileLength,
        hk + 2⟩, false⟩ := by
  simp only [animate, toggleAriaC, updateNavigation, hcf, hct]

theorem take_min_length {α : Type} (l : List α) (b : Nat) :
    l.take (min b l.length) = l.take b := by
  rcases le_or_lt b l.length with h | h
  · rw [min_eq_left h]
  · rw [min_eq_right h.le, List.take_length, List.take_all_of_le h.le]

theorem drop_clamp {α : Type} (l' : List α) (a L : Nat) (hL : l'.length ≤ L) :
    l'.drop (min a L) = l'.drop a := by
  rcases le_or_lt a L with h | h
  · rw [min_eq_left h]
  · rw [min_eq_right h.le, List.drop_eq_nil_of_le hL,
      List.drop_eq_nil_of_le (le_trans hL h.le)]

theorem jslice_nat (l : List Nat) (a b : Nat) :
    jslice l (some (a : Int)) (some (b : Int)) = (l.take b).drop a := by
  have ha : ¬ ((a : Int) < 0) := not_lt.mpr (Int.natCast_nonneg a)
  have hb : ¬ ((b : Int) < 0) := not_lt.mpr (Int.natCast_nonneg b)
  show (l.take (sliceBound l.length (some (b : Int)))).drop
        (sliceBound l.length (some (a : Int))) = (l.take b).drop a
  simp only [sliceBound, if_neg ha, if_neg hb, Int.toNat_natCast]
  rw [take_min_length]
  exact drop_clamp _ a l.length (by rw [List.length_take]; omega)

theorem buildFrames_eq (n i : Nat) (hi : 0 < i) :
    buildFrames (List.range n) (some (i : Int)) =
      (List.range (ceilN n i)).map fun sec =>
        ((List.range n).take (i * (sec + 1))).drop (i * sec) := by
  have h1 : (0 : Int) < (i : Int) := by exact_mod_cast hi
  unfold buildFrames frameIter
  simp only [List.length_range, if_pos h1, Int.toNat_natCast]
  refine List.map_congr_left fun sec _ => ?_
  have e1 : jmul (some (i : Int)) (some (sec : Int)) = some ((i * sec : Nat) : Int) := by
    rw [jmul_some]; push_cast; ring_nf
  have e2 : jmul (some (i : Int)) (some ((sec : Int) + 1))
      = some ((i * (sec + 1) : Nat) : Int) := by
    rw [jmul_some]; push_cast; ring_nf
  rw [e1, e2, jslice_nat]

theorem frames_join_aux (l : List Nat) (i : Nat) (k : Nat) :
    ((List.range k).map fun sec => (l.take (i * (sec + 1))).drop (i * sec)).flatten
      = l.take (i * k) := by
  induction k with
  | zero => simp
  | succ k ih =>
    rw [List.range_succ, List.map_append, List.flatten_append, ih]
    have hmono : i * k ≤ i * (k + 1) := Nat.mul_le_mul_left i (by omega)
    have h1 : (l.take (i * (k + 1))).take (i * k) = l.take (i * k) := by
      rw [List.take_take, min_eq_left hmono]
    simp only [List.map_cons, List.map_nil, List.flatten_cons, List.flatten_nil,
      List.append_nil]
    calc l.take (i * k) ++ (l.take (i * (k + 1))).drop (i * k)
        = (l.take (i * (k + 1))).take (i * k)
            ++ (l.take (i * (k + 1))).drop (i * k) := by rw [h1]
      _ = l.take (i * (k + 1)) := List.take_append_drop _ _

theorem frames_join (n i : Nat) (hi : 0 < i) :
    (buildFrames (List.range n) (some (i : Int))).flatten = List.range n := by
  rw [buildFrames_eq n i hi, frames_join_aux]
  exact List.take_all_of_le (by rw [List.length_range]; exact ceilN_le n i hi)

theorem frames_length (n i : Nat) (hi : 0 < i) :
    (buildFrames (List.range n) (some (i : Int))).length = ceilN n i := by
  rw [buildFrames_eq n i hi, List.length_map, List.length_range]

theorem frames_get_small (n i sec : Nat) (hi : 0 < i) (hsec : sec + 1 < ceilN n i) :
    ((buildFrames (List.range n) (some (i : Int))).get? sec).map List.length
      = some i := by
  rw [buildFrames_eq n i hi, List.get?_map, List.get?_range (by omega)]
  obtain ⟨m, hm⟩ : ∃ m, ceilN n i = m + 1 := ⟨ceilN n i - 1, by omega⟩
  have hsec' : sec + 1 ≤ m := by omega
  have h3 := ceilN_lt n i hi
  rw [hm, Nat.mul_add, Nat.mul_one] at h3
  have hlt : i * (sec + 1) < n := by
    have h4 : i * (sec + 1) ≤ i * m := Nat.mul_le_mul_left i hsec'
    linarith
  simp only [Option.map_some']
  rw [List.length_drop, List.length_take, List.length_range,
    min_eq_left (le_of_lt hlt), Nat.mul_add, Nat.mul_one,
    Nat.add_sub_cancel_left]

theorem frames_get_last (n i : Nat) (hn : 0 < n) (hi : 0 < i) :
    ((buildFrames (List.range n) (some (i : Int))).get? (ceilN n i - 1)).map
        List.length = some (n - i * (ceilN n i - 1)) := by
  have hpos := ceilN_pos n i hn hi
  rw [buildFrames_eq n i hi, List.get?_map, List.get?_range (by omega)]
  have hfc : ceilN n i - 1 + 1 = ceilN n i := by omega
  simp only [Option.map_some']
  rw [List.length_drop, List.length_take, List.length_range, hfc,
    min_eq_right (ceilN_le n i hi)]

theorem frames_get_zero (n i : Nat) (hn : 0 < n) (hi : 0 < i) :
    (buildFrames (List.range n) (some (i : Int))).get? 0
      = some ((List.range n).take i) := by
  rw [buildFrames_eq n i hi, List.get?_map, List.get?_range (ceilN_pos n i hn hi)]
  simp

theorem initCar_spec (n i : Nat) (m : Mode) (tiles0 : List TileState) (w h : Int)
    (hn : 0 < n) (hi : 0 < i) (hlen : tiles0.length = n) :
    ∃ c, initCar ⟨some (i : Int), m⟩ tiles0 w h = .ok c ∧
      Shape n i c ∧
      c.options = ⟨some (i : Int), m⟩ ∧
      c.state.index = some 0 ∧
      c.state.prevIndex = none ∧
      c.state.curTile = some 0 ∧
      c.state.prevTile = none ∧
      c.state.frameIndex = some 0 ∧
      c.state.frameArr = buildFrames (List.range n) (some (i : Int)) ∧
      c.state.curFrame = some ((List.range n).take i) ∧
      c.hasAriaInited = true ∧
      c.hookCount = 0 ∧
      c.prevBtnDisabled = true ∧
      c.nextBtnDisabled = decide ((n : Int) ≤ (i : Int)) ∧
      c.aria = toggleFrom ((List.range n).take i) false [] true 0
        (toggleFrom (List.range n) true ["carousel-tile"] false 0 tiles0) := by
  obtain ⟨t0, ht0⟩ : ∃ t, tiles0.get? 0 = some t := by
    cases tiles0 with
    | nil => simp at hlen; omega
    | cons a l => exact ⟨a, rfl⟩
  have hfr0 := frames_get_zero n i hn hi
  have hci0 := jceilDiv_zero_left i hi
  have hcin := jceilDiv_natCast n i hi
  have hj0 : jindex (buildFrames (List.range n) (some (i : Int))) (some (0 : Int))
      = some ((List.range n).take i) := by
    show (if (0 : Int) < 0 then none
          else (buildFrames (List.range n) (some (i : Int))).get? (0 : Int).toNat)
        = some ((List.range n).take i)
    simpa using hfr0
  simp only [initCar, normalizeState, hlen, ht0, hci0, hj0]
  refine ⟨_, rfl, ?_, rfl, rfl, rfl, ?_, rfl, rfl, rfl, rfl, rfl, rfl, ?_, ?_, rfl⟩
  · constructor
    · rfl
    · rfl
    · rfl
    · show jceilDiv (some (n : Int)) (some (i : Int)) = _
      rw [hcin]
    · show jsub (jmul (some (i : Int)) (jceilDiv (some (n : Int)) (some (i : Int))))
          (some (n : Int)) = _
      rw [hcin, jmul_some, jsub_some]
  · show jindex (List.range n) (some (0 : Int)) = some 0
    rw [jindex_range (le_refl 0) (by exact_mod_cast hn)]
    rfl
  · show (jle (some (n : Int)) (some (i : Int)) || jeq (some 0) (some 0)) = true
    simp
  · rfl

theorem animate_mk_noTile (opts : Options) (st : CState) (aria : List TileState)
    (hai pb nb : Bool) (hk : Nat) (cf : List Nat)
    (hcf : st.curFrame = some cf) (hct : st.curTile = none) :
    animate ⟨opts, st, aria, hai, pb, nb, hk⟩ =
      ⟨⟨opts, st,
        toggleFrom cf false [] true 0
          (toggleFrom st.tileArr true [] true 0
            (toggleFrom st.tileArr false [] hai 0 aria)),
        true,
        jeq st.index (some 0),
        jge (jadd st.index opts.increment) st.curTileLength,
        hk + 1⟩, true⟩ := by
  simp only [animate, toggleAriaC, updateNavigation, hcf, hct]

theorem animate_ok (c : Car) (cf : List Nat) (t : Nat)
    (hcf : c.state.curFrame = some cf) (hct : c.state.curTile = some t) :
    animate c =
      ⟨⟨c.options, c.state,
        toggleFrom cf false [] true 0
          (toggleFrom c.state.tileArr true [] true 0
            (toggleFrom c.state.tileArr false [] c.hasAriaInited 0 c.aria)),
        true,
        jeq c.state.index (some 0),
        jge (jadd c.state.index c.options.increment) c.state.curTileLength,
        c.hookCount + 2⟩, false⟩ := by
  obtain ⟨o, s, a, b1, b2, b3, hk⟩ := c
  exact animate_mk o s a b1 b2 b3 hk cf t hcf hct

theorem animate_noTile (c : Car) (cf : List Nat)
    (hcf : c.state.curFrame = some cf) (hct : c.state.curTile = none) :
    animate c =
      ⟨⟨c.options, c.state,
        toggleFrom cf false [] true 0
          (toggleFrom c.state.tileArr true [] true 0
            (toggleFrom c.state.tileArr false [] c.hasAriaInited 0 c.aria)),
        true,
        jeq c.state.index (some 0),
        jge (jadd c.state.index c.options.increment) c.state.curTileLength,
        c.hookCount + 1⟩, true⟩ := by
  obtain ⟨o, s, a, b1, b2, b3, hk⟩ := c
  exact animate_mk_noTile o s a b1 b2 b3 hk cf hcf hct

theorem committedIndex_shape (n i : Nat) (c : Car) (hs : Shape n i c) (x : Int) :
    committedIndex c (some x) =
      some (if (n : Int) - i < x then (n : Int) - i else if x < 0 then 0 else x) := by
  unfold committedIndex
  rw [hs.len, hs.inc]
  simp only [jsub_some, jgt_some, jlt_some]
  split_ifs with h1 h2 <;> simp_all

theorem commit_spec (n i : Nat) (c : Car) (hs : Shape n i c) (x k d : Int)
    (hd : d = (i : Int) * (ceilN n i : Nat) - (n : Int))
    (hk : k = if (n : Int) - i < x then (n : Int) - i else if x < 0 then 0 else x)
    (ct : Option Nat)
    (hct : ct = if (k == (n : Int) - (i : Int)) && (d != 0)
          && modeIsFrame c.options.incrementMode
        then jindex (List.range n) (some (k + d))
        else jindex (List.range n) (some k)) :
    (updateState c (some x) true).car.state.index = some k ∧
    (updateState c (some x) true).car.state.prevIndex = c.state.index ∧
    (updateState c (some x) true).car.state.prevTile = c.state.curTile ∧
    (updateState c (some x) true).car.state.curTile = ct ∧
    (updateState c (some x) true).car.state.curFrame
      = some (jslice (List.range n) (some k) (some ((i : Int) + k))) ∧
    (updateState c (some x) true).car.options = c.options ∧
    Shape n i (updateState c (some x) true).car ∧
    (updateState c (some x) true).car.prevBtnDisabled = (k == 0) ∧
    (updateState c (some x) true).car.nextBtnDisabled = decide ((n : Int) ≤ k + i) ∧
    (updateState c (some x) true).car.aria
      = toggleFrom (jslice (List.range n) (some k) (some ((i : Int) + k)))
          false [] true 0
        (toggleFrom (List.range n) true [] true 0
          (toggleFrom (List.range n) false [] c.hasAriaInited 0 c.aria)) ∧
    (updateState c (some x) true).car.hasAriaInited = true ∧
    (∀ t, ct = some t →
      (updateState c (some x) true).err = false ∧
      (updateState c (some x) true).car.hookCount = c.hookCount + 2) ∧
    (ct = none →
      (updateState c (some x) true).err = true ∧
      (updateState c (some x) true).car.hookCount = c.hookCount + 1) := by
  have hidx : committedIndex c (some x) = some k := by
    rw [committedIndex_shape n i c hs x, ← hk]
  have hcf : (commitCar c (some x)).state.curFrame
      = some (jslice (List.range n) (some k) (some ((i : Int) + k))) := by
    rw [commitCar_state, committedState_curFrame, hidx, hs.arr, hs.inc, jadd_some]
  have hctile : (commitCar c (some x)).state.curTile = ct := by
    rw [commitCar_state, committedState_curTile, hidx, hs.len, hs.inc, hs.delta,
      hs.arr, hct, hd]
    simp only [jsub_some, jeq_some, jtruthy_some, jadd_some]
  have hr : updateState c (some x) true = animate (commitCar c (some x)) := by
    rw [updateState_eq]; simp
  have harr : (commitCar c (some x)).state.tileArr = List.range n := by
    rw [commitCar_state, committedState_tileArr, hs.arr]
  rcases hctv : ct with _ | t
  · rw [hctv] at hctile
    have ha := animate_noTile (commitCar c (some x)) _ hcf hctile
    rw [hr, ha]
    refine ⟨?_, ?_, ?_, ?_, ?_, rfl, ?_, ?_, ?_, ?_, rfl, ?_, ?_⟩
    · simp [hidx]
    · simp
    · simp
    · simpa using hctile
    · simpa using hcf
    · exact ⟨hs.inc, hs.len, hs.arr, hs.fcl, hs.delta⟩
    · show jeq (committedIndex c (some x)) (some 0) = (k == 0)
      rw [hidx, jeq_some]
    · show jge (jadd (committedIndex c (some x)) c.options.increment)
          c.state.curTileLength = decide ((n : Int) ≤ k + i)
      rw [hidx, hs.inc, hs.len, jadd_some, jge_some]
    · simp [hs.arr]
    · intro t ht; exact absurd ht (by simp)
    · intro _; exact ⟨rfl, rfl⟩
  · rw [hctv] at hctile
    have ha := animate_ok (commitCar c (some x)) _ t hcf hctile
    rw [hr, ha]
    refine ⟨?_, ?_, ?_, ?_, ?_, rfl, ?_, ?_, ?_, ?_, rfl, ?_, ?_⟩
    · simp [hidx]
    · simp
    · simp
    · simpa using hctile
    · simpa using hcf
    · exact ⟨hs.inc, hs.len, hs.arr, hs.fcl, hs.delta⟩
    · show jeq (committedIndex c (some x)) (some 0) = (k == 0)
      rw [hidx, jeq_some]
    · show jge (jadd (committedIndex c (some x)) c.options.increment)
          c.state.curTileLength = decide ((n : Int) ≤ k + i)
      rw [hidx, hs.inc, hs.len, jadd_some, jge_some]
    · simp [hs.arr]
    · intro t' ht'; exact ⟨rfl, rfl⟩
    · intro ht'; exact absurd ht' (by simp)

/- ------------------------------------------------------------------ -/
/- Class-marker bookkeeping of `toggleAria`.                           -/
/- ------------------------------------------------------------------ -/

theorem toggleFrom_length (items : List Nat) (add : Bool) (ic : List String)
    (b : Bool) (base : Nat) (aria : List TileState) :
    (toggleFrom items add ic b base aria).length = aria.length := by
  induction aria generalizing base with
  | nil => rfl
  | cons t ts ih => simp [toggleFrom, ih]

theorem toggleFrom_get (items : List Nat) (add : Bool) (ic : List String)
    (b : Bool) (base j : Nat) (aria : List TileState) :
    (toggleFrom items add ic b base aria).get? j =
      (aria.get? j).map
        (fun t => if (base + j) ∈ items then toggleItem add ic b t else t) := by
  induction aria generalizing base j with
  | nil => simp [toggleFrom]
  | cons t ts ih =>
    cases j with
    | zero => simp [toggleFrom]
    | succ j =>
      show (toggleFrom items add ic b (base + 1) ts).get? j = _
      rw [ih (base + 1) j]
      simp only [List.get?_cons_succ]
      have : base + 1 + j = base + (j + 1) := by omega
      rw [this]

theorem replaceFirst_not_mem {old : String} (new : String) {l : List String}
    (h : old ∉ l) : replaceFirst old new l = l := by
  induction l with
  | nil => rfl
  | cons c cs ih =>
    rw [List.mem_cons, not_or] at h
    unfold replaceFirst
    rw [if_neg (fun hc => h.1 hc.symm), ih h.2]

theorem replaceFirst_append_last {old : String} (new : String) {pre : List String}
    (h : old ∉ pre) : replaceFirst old new (pre ++ [old]) = pre ++ [new] := by
  induction pre with
  | nil => simp [replaceFirst]
  | cons c cs ih =>
    rw [List.mem_cons, not_or] at h
    show replaceFirst old new (c :: (cs ++ [old])) = c :: (cs ++ [new])
    unfold replaceFirst
    rw [if_neg (fun hc => h.1 hc.symm), ih h.2]

theorem toggleItem_spacer (add : Bool) (ic : List String) (b : Bool)
    (t : TileState) (hsp : "carousel-tile-spacer" ∈ t.classes) :
    toggleItem add ic b t = t := by
  unfold toggleItem
  rw [if_pos (List.mem_append_left ic hsp)]

theorem toggleItem_show_hid (pre : List String) (x : Option Int)
    (hh : "state-hidden" ∉ pre) (hsp : "carousel-tile-spacer" ∉ pre) :
    toggleItem false [] true ⟨pre ++ ["state-hidden"], x⟩
      = ⟨pre ++ ["state-visible"], x⟩ := by
  have hsp2 : "carousel-tile-spacer" ∉ pre ++ ["state-hidden"] := by simp [hsp]
  simp [toggleItem, hsp2, replaceFirst_append_last "state-visible" hh]

theorem toggleItem_show_vis (pre : List String) (x : Option Int)
    (hh : "state-hidden" ∉ pre) (hsp : "carousel-tile-spacer" ∉ pre) :
    toggleItem false [] true ⟨pre ++ ["state-visible"], x⟩
      = ⟨pre ++ ["state-visible"], x⟩ := by
  have hsp2 : "carousel-tile-spacer" ∉ pre ++ ["state-visible"] := by simp [hsp]
  have hh2 : "state-hidden" ∉ pre ++ ["state-visible"] := by simp [hh]
  simp [toggleItem, hsp2, replaceFirst_not_mem "state-visible" hh2]

theorem toggleItem_hide_vis (pre : List String) (x : Option Int)
    (hv : "state-visible" ∉ pre) (hsp : "carousel-tile-spacer" ∉ pre) :
    toggleItem true [] true ⟨pre ++ ["state-visible"], x⟩
      = ⟨pre ++ ["state-hidden"], x⟩ := by
  have hsp2 : "carousel-tile-spacer" ∉ pre ++ ["state-visible"] := by simp [hsp]
  simp [toggleItem, hsp2, replaceFirst_append_last "state-hidden" hv]

theorem toggleItem_hide_hid (pre : List String) (x : Option Int)
    (hv : "state-visible" ∉ pre) (hsp : "carousel-tile-spacer" ∉ pre) :
    toggleItem true [] true ⟨pre ++ ["state-hidden"], x⟩
      = ⟨pre ++ ["state-hidden"], x⟩ := by
  have hsp2 : "carousel-tile-spacer" ∉ pre ++ ["state-hidden"] := by simp [hsp]
  have hv2 : "state-visible" ∉ pre ++ ["state-hidden"] := by simp [hv]
  simp [toggleItem, hsp2, replaceFirst_not_mem "state-hidden" hv2]

theorem toggleItem_init_clean (t : TileState) (hc : clsClean t) :
    toggleItem true ["carousel-tile"] false t
      = ⟨(t.classes ++ ["carousel-tile"]) ++ ["state-hidden"], some (-1)⟩ := by
  obtain ⟨hv, hh, hsp⟩ := hc
  have hsp2 : "carousel-tile-spacer" ∉ t.classes ++ ["carousel-tile"] := by
    simp [hsp]
  have hv2 : "state-visible" ∉ t.classes ++ ["carousel-tile"] := by simp [hv]
  simp [toggleItem, hsp2, replaceFirst_not_mem "state-hidden" hv2]

theorem aria_after_commit (n : Nat) (cf : List Nat) (aria : List TileState)
    (hlen : aria.length = n)
    (hok : ∀ j t, aria.get? j = some t → TileOk t) :
    ∀ j t', (toggleFrom cf false [] true 0
        (toggleFrom (List.range n) true [] true 0
          (toggleFrom (List.range n) false [] true 0 aria))).get? j = some t' →
      TileOk t' ∧ (visibleT t' ↔ j ∈ cf) ∧ (hiddenT t' ↔ j ∉ cf) ∧
        t'.tabIdx = some (-1) := by
  intro j t' hj
  rw [toggleFrom_get, toggleFrom_get, toggleFrom_get] at hj
  simp only [Option.map_map, Option.map_eq_some', Function.comp] at hj
  obtain ⟨t0, ht0, hval⟩ := hj
  obtain ⟨pre, hv, hh, hsp, hm, htab⟩ := hok j t0 ht0
  have hjn : j < n := by
    obtain ⟨h0, -⟩ := List.get?_eq_some.mp ht0
    omega
  obtain ⟨cls0, tab0⟩ := t0
  simp only at hm htab
  subst htab
  have hmem : (0 + j) ∈ List.range n := by
    simp only [List.mem_range]
    omega
  rw [if_pos hmem, if_pos hmem] at hval
  rcases hm with hm | hm <;> subst hm
  · rw [toggleItem_show_vis pre _ hh hsp, toggleItem_hide_vis pre _ hv hsp] at hval
    by_cases hcf : j ∈ cf
    · rw [if_pos (by simpa using hcf), toggleItem_show_hid pre _ hh hsp] at hval
      subst hval
      exact ⟨⟨pre, hv, hh, hsp, Or.inl rfl, rfl⟩, by simp [visibleT, hcf],
        by simp [hiddenT, hh, hcf], rfl⟩
    · rw [if_neg (by simpa using hcf)] at hval
      subst hval
      exact ⟨⟨pre, hv, hh, hsp, Or.inr rfl, rfl⟩, by simp [visibleT, hv, hcf],
        by simp [hiddenT, hcf], rfl⟩
  · rw [toggleItem_show_hid pre _ hh hsp, toggleItem_hide_vis pre _ hv hsp] at hval
    by_cases hcf : j ∈ cf
    · rw [if_pos (by simpa using hcf), toggleItem_show_hid pre _ hh hsp] at hval
      subst hval
      exact ⟨⟨pre, hv, hh, hsp, Or.inl rfl, rfl⟩, by simp [visibleT, hcf],
        by simp [hiddenT, hh, hcf], rfl⟩
    · rw [if_neg (by simpa using hcf)] at hval
      subst hval
      exact ⟨⟨pre, hv, hh, hsp, Or.inr rfl, rfl⟩, by simp [visibleT, hv, hcf],
        by simp [hiddenT, hcf], rfl⟩

theorem aria_after_init (n i : Nat) (tiles0 : List TileState)
    (hlen : tiles0.length = n)
    (hclean : ∀ j t, tiles0.get? j = some t → clsClean t) :
    ∀ j t', (toggleFrom ((List.range n).take i) false [] true 0
        (toggleFrom (List.range n) true ["carousel-tile"] false 0 tiles0)).get? j
          = some t' →
      TileOk t' ∧ (visibleT t' ↔ j ∈ (List.range n).take i) ∧
        (hiddenT t' ↔ j ∉ (List.range n).take i) ∧
        t'.tabIdx = some (-1) := by
  intro j t' hj
  rw [toggleFrom_get, toggleFrom_get] at hj
  simp only [Option.map_map, Option.map_eq_some', Function.comp] at hj
  obtain ⟨t0, ht0, hval⟩ := hj
  obtain ⟨hv, hh, hsp⟩ := hclean j t0 ht0
  have hjn : j < n := by
    obtain ⟨h1, -⟩ := List.get?_eq_some.mp ht0
    omega
  have hmem : (0 + j) ∈ List.range n := by
    simp [List.mem_range]; omega
  rw [if_pos hmem, toggleItem_init_clean t0 ⟨hv, hh, hsp⟩] at hval
  have hv' : "state-visible" ∉ t0.classes ++ ["carousel-tile"] := by simp [hv]
  have hh' : "state-hidden" ∉ t0.classes ++ ["carousel-tile"] := by simp [hh]
  have hsp' : "carousel-tile-spacer" ∉ t0.classes ++ ["carousel-tile"] := by
    simp [hsp]
  by_cases hcf : j ∈ (List.range n).take i
  · rw [if_pos (by simpa using hcf),
      toggleItem_show_hid _ (some (-1)) hh' hsp'] at hval
    subst hval
    refine ⟨⟨_, hv', hh', hsp', Or.inl rfl, rfl⟩, ?_, ?_, rfl⟩
    · simp [visibleT, hcf]
    · simp [hiddenT, hh, hcf]
  · rw [if_neg (by simpa using hcf)] at hval
    subst hval
    refine ⟨⟨_, hv', hh', hsp', Or.inr rfl, rfl⟩, ?_, ?_, rfl⟩
    · simp [visibleT, hv, hcf]
    · simp [hiddenT, hcf]

/- ------------------------------------------------------------------ -/
/- Navigation helpers.                                                 -/
/- ------------------------------------------------------------------ -/

theorem nextFrame_cand (c : Car) (i : Nat) (k : Int)
    (hinc : c.options.increment = some (i : Int)) (hidx : c.state.index = some k) :
    nextFrame c = updateState c
      (some (if modeIsTile c.options.incrementMode then k + 1 else k + i)) true := by
  unfold nextFrame
  cases hm : c.options.incrementMode <;> simp [hm, modeIsTile, hidx, hinc]

theorem prevFrame_cand (c : Car) (i : Nat) (k : Int)
    (hinc : c.options.increment = some (i : Int)) (hidx : c.state.index = some k) :
    prevFrame c = updateState c
      (some (if modeIsTile c.options.incrementMode then k - 1 else k - i)) true := by
  unfold prevFrame
  cases hm : c.options.incrementMode <;> simp [hm, modeIsTile, hidx, hinc]

theorem jumpToFrame_int (n i : Nat) (c : Car) (hs : Shape n i c) (f k : Int)
    (hidx : c.state.index = some k) (hf0 : 0 ≤ (f - 1) * (i : Int)) :
    jumpToFrame c (some f) =
      if ((f - 1) * (i : Int) == k) || decide (((ceilN n i : Nat) : Int) < f) then
        ⟨c, false⟩
      else updateState c (some ((f - 1) * (i : Int))) true := by
  unfold jumpToFrame
  rw [hs.inc, hs.fcl, hidx]
  simp only [jmul_some, jsub_some, jlt_some]
  have he : (f * (i : Int) - i : Int) = (f - 1) * i := by ring
  rw [he, if_neg (show ¬ (decide ((f - 1) * (i : Int) < 0) = true) by
    simp [not_lt.mpr hf0])]
  simp only [jeq_some, jgt_some]

/-- Any integer candidate committed through `updateState` on a well-formed
carousel with `I ≤ N` lands in `[0, N - I]`, completes without throwing,
fires both hook slots, records the previous index, and preserves the
structural shape. -/
theorem nav_commit_good (n i : Nat) (c : Car) (hs : Shape n i c)
    (hi : 0 < i) (hin : i ≤ n) (x : Int) :
    ∃ k', (updateState c (some x) true).car.state.index = some k' ∧
      0 ≤ k' ∧ k' ≤ (n : Int) - i ∧
      (updateState c (some x) true).err = false ∧
      (updateState c (some x) true).car.hookCount = c.hookCount + 2 ∧
      (updateState c (some x) true).car.state.prevIndex = c.state.index ∧
      Shape n i (updateState c (some x) true).car ∧
      k' = (if (n : Int) - i < x then (n : Int) - i else if x < 0 then 0 else x) := by
  have hn : 0 < n := lt_of_lt_of_le hi hin
  set k : Int := if (n : Int) - i < x then (n : Int) - i else if x < 0 then 0 else x
    with hk
  set d : Int := (i : Int) * ((ceilN n i : Nat) : Int) - (n : Int) with hd
  set ct : Option Nat := if (k == (n : Int) - (i : Int)) && (d != 0)
        && modeIsFrame c.options.incrementMode
      then jindex (List.range n) (some (k + d))
      else jindex (List.range n) (some k) with hct
  have hcs := commit_spec n i c hs x k d hd hk ct hct
  have hin' : (i : Int) ≤ (n : Int) := by exact_mod_cast hin
  have hi' : (0 : Int) < (i : Int) := by exact_mod_cast hi
  have hb : 0 ≤ k ∧ k ≤ (n : Int) - i := by
    rw [hk]; split_ifs <;> omega
  have hle' : (n : Int) ≤ (i : Int) * ((ceilN n i : Nat) : Int) := by
    exact_mod_cast ceilN_le n i hi
  have hlt' : (i : Int) * ((ceilN n i : Nat) : Int) < (n : Int) + i := by
    exact_mod_cast ceilN_lt n i hi
  have hfc1 : (1 : Int) ≤ ((ceilN n i : Nat) : Int) := by
    exact_mod_cast ceilN_pos n i hn hi
  have hct_some : ∃ t, ct = some t := by
    rw [hct]
    split_ifs with hif
    · simp only [Bool.and_eq_true, beq_iff_eq, bne_iff_ne, ne_eq] at hif
      obtain ⟨⟨h1, h2⟩, h3⟩ := hif
      have hmul : (i : Int) * 1 ≤ (i : Int) * ((ceilN n i : Nat) : Int) :=
        mul_le_mul_of_nonneg_left hfc1 (le_of_lt hi')
      refine ⟨(k + d).toNat, jindex_range ?_ ?_⟩
      · rw [h1, hd]; linarith
      · rw [h1, hd]; linarith
    · refine ⟨k.toNat, jindex_range hb.1 ?_⟩
      linarith [hb.2]
  obtain ⟨t, htv⟩ := hct_some
  obtain ⟨hc1, hc2, hc3, hc4, hc5, hc6, hc7, hc8, hc9, hc10, hc11, hc12, hc13⟩ := hcs
  exact ⟨k, hc1, hb.1, hb.2, (hc12 t htv).1, (hc12 t htv).2, hc2, hc7, rfl⟩

theorem cleanTiles_clean (n : Nat) :
    ∀ j t, (cleanTiles n).get? j = some t → clsClean t := by
  intro j t hjt
  have hmem : t ∈ cleanTiles n := List.get?_mem hjt
  have : t = cleanTile := List.eq_of_mem_replicate hmem
  subst this
  exact ⟨by simp [cleanTile], by simp [cleanTile], by simp [cleanTile]⟩

/- ------------------------------------------------------------------ -/
/- Claim theorems.                                                     -/
/- ------------------------------------------------------------------ -/

/-- C1 counterexample: the claim quantifies over every tile count N ≥ 0,
but for N = 0 normalization does not produce a frame partition at all — it
throws a `TypeError` (`outerWidth` dereferences the `undefined` first
tile), so `normalizeState`/`init` end in an error instead of a state. -/
theorem c1_cex :
    initCar ⟨some 1, Mode.frame⟩ [] 1 1 = Except.error () ∧
    (¬ ∃ c, initCar ⟨some 1, Mode.frame⟩ [] 1 1 = Except.ok c) := by
  refine ⟨rfl, ?_⟩
  rintro ⟨c, hc⟩
  rw [show initCar ⟨some 1, Mode.frame⟩ [] 1 1 = Except.error () from rfl] at hc
  exact Except.noConfusion hc

/-- C1 (amended to N ≥ 1): for every tile sequence of length N ≥ 1 and
every increment I ≥ 1, normalization produces a frame partition with
frameCount = ceil(N/I): the frames concatenate, in order, to the full tile
sequence (hence they are consecutive, non-overlapping, and their sizes sum
to N), every frame except the last has exactly I tiles, the last has
N − I·(frameCount − 1) ∈ [1, I] tiles, and tileDelta = I·frameCount − N;
the initial index and frameIndex are 0. -/
theorem c1_partition (n i : Nat) (m : Mode) (tiles0 : List TileState)
    (w h : Int) (hn : 0 < n) (hi : 0 < i) (hlen : tiles0.length = n) :
    ∃ c, initCar ⟨some (i : Int), m⟩ tiles0 w h = Except.ok c ∧
      c.state.curFrameLength = some ((ceilN n i : Nat) : Int) ∧
      c.state.frameArr.length = ceilN n i ∧
      c.state.frameArr.flatten = List.range n ∧
      (c.state.frameArr.map List.length).sum = n ∧
      (∀ sec, sec + 1 < ceilN n i →
        (c.state.frameArr.get? sec).map List.length = some i) ∧
      (c.state.frameArr.get? (ceilN n i - 1)).map List.length
        = some (n - i * (ceilN n i - 1)) ∧
      (∀ fr, c.state.frameArr.get? (ceilN n i - 1) = some fr →
        0 < fr.length ∧ fr.length ≤ i) ∧
      c.state.tileDelta = some ((i : Int) * ((ceilN n i : Nat) : Int) - n) ∧
      c.state.index = some 0 ∧
      c.state.frameIndex = some 0 := by
  obtain ⟨c, hc, hs, hopts, hidx, hpidx, hct, hpt, hfidx, hfarr, hcf, hha, hhk,
    hpb, hnb, haria⟩ := initCar_spec n i m tiles0 w h hn hi hlen
  have hlast := frames_get_last n i hn hi
  have hfc1 := ceilN_pos n i hn hi
  have hle := ceilN_le n i hi
  have hlt := ceilN_lt n i hi
  refine ⟨c, hc, hs.fcl, ?_, ?_, ?_, ?_, ?_, ?_, hs.delta, hidx, hfidx⟩
  · rw [hfarr]; exact frames_length n i hi
  · rw [hfarr]; exact frames_join n i hi
  · rw [hfarr, ← List.length_flatten, frames_join n i hi, List.length_range]
  · intro sec hsec; rw [hfarr]; exact frames_get_small n i sec hi hsec
  · rw [hfarr]; exact hlast
  · intro fr hfr
    rw [hfarr] at hfr
    rw [hfr] at hlast
    simp only [Option.map_some', Option.some.injEq] at hlast
    obtain ⟨fc1, hfc⟩ : ∃ fc1, ceilN n i = fc1 + 1 := ⟨ceilN n i - 1, by omega⟩
    rw [hfc, Nat.mul_add, Nat.mul_one] at hle hlt
    rw [hfc] at hlast
    simp only [Nat.add_sub_cancel] at hlast
    constructor
    · rw [hlast]
      have : i * fc1 < n := by
        have h9 : i * fc1 + i < n + i := hlt
        omega
      omega
    · rw [hlast]
      omega

/-- Witness for C1 at N = 10, I = 3: frameCount 4, the frames flatten back
to the 10 tiles, tileDelta 2, index 0. -/
theorem c1_partition_witness :
    ∃ c, initCar ⟨some ((3 : Nat) : Int), Mode.frame⟩ (cleanTiles 10) 5 5
        = Except.ok c ∧
      c.state.curFrameLength = some 4 ∧
      c.state.frameArr.flatten = List.range 10 ∧
      c.state.tileDelta = some 2 ∧
      c.state.index = some 0 := by
  obtain ⟨c, hc, hfcl, hflen, hjoin, hsum, hsmall, hlast, hbnd, hdelta, hidx,
    hfidx⟩ := c1_partition 10 3 Mode.frame (cleanTiles 10) 5 5 (by decide)
      (by decide) (by decide)
  have e1 : ceilN 10 3 = 4 := by decide
  rw [e1] at hfcl
  rw [e1] at hdelta
  exact ⟨c, hc, by simpa using hfcl, hjoin, by simpa using hdelta, hidx⟩

/-- C6 (code bug): at the failing input N = 0 the code throws instead of
building the inert state the spec requires: `normalizeState` reads
`offsetWidth` of the `undefined` first tile inside `outerWidth`, so
initialization ends in an error and no navigation-capable state exists. -/
theorem c6_empty_throws :
    normalizeState ⟨some 1, Mode.frame⟩ [] 1 1 = Except.error () ∧
    initCar ⟨some 1, Mode.frame⟩ [] 1 1 = Except.error () ∧
    (∀ (m : Mode) (inc : Option Int) (w h : Int),
      normalizeState ⟨inc, m⟩ [] w h = Except.error ()) := by
  refine ⟨rfl, rfl, fun m inc w h => rfl⟩

/-- C2 counterexample: with N = 1 tile and increment I = 2 (frame mode), a
single `next()` from index 0 commits index −1, outside
`[0, max(0, N − I)] = [0, 0]` — the upper clamp
`curTileLength - increment` is applied before the lower bound and is
negative here. -/
theorem c2_cex :
    carSmall.state.index = some 0 ∧
    (nextFrame carSmall).car.state.index = some (-1) ∧
    (nextFrame carSmall).err = false := by decide

/-- C2 (amended to I ≤ N): for every carousel with N tiles and increment I
with I ≤ N, in either increment mode, after any `next()` or `prev()` call
the committed index lies in `[0, N − I]`; once the index is at the maximum
`N − I`, a further `next()` leaves it unchanged, and `prev()` at index 0
leaves it unchanged, while every such call (boundary calls included) still
re-runs the full commit sequence: it completes without error, records the
previous index, fires both frame-change hook slots and preserves the
structural shape. -/
theorem c2_nav_clamp (n i : Nat) (c : Car) (k : Int)
    (hs : Shape n i c) (hi : 0 < i) (hin : i ≤ n)
    (hidx : c.state.index = some k) (hk0 : 0 ≤ k) (hk1 : k ≤ (n : Int) - i) :
    (∃ k', (nextFrame c).car.state.index = some k' ∧ 0 ≤ k' ∧ k' ≤ (n : Int) - i) ∧
    (∃ k', (prevFrame c).car.state.index = some k' ∧ 0 ≤ k' ∧ k' ≤ (n : Int) - i) ∧
    (k = (n : Int) - i → (nextFrame c).car.state.index = some k) ∧
    (k = 0 → (prevFrame c).car.state.index = some 0) ∧
    (nextFrame c).err = false ∧
    (nextFrame c).car.hookCount = c.hookCount + 2 ∧
    (nextFrame c).car.state.prevIndex = some k ∧
    (prevFrame c).err = false ∧
    (prevFrame c).car.hookCount = c.hookCount + 2 ∧
    (prevFrame c).car.state.prevIndex = some k ∧
    Shape n i (nextFrame c).car ∧ Shape n i (prevFrame c).car := by
  have hnf := nextFrame_cand c i k hs.inc hidx
  have hpf := prevFrame_cand c i k hs.inc hidx
  set xN : Int := if modeIsTile c.options.incrementMode then k + 1 else k + i
    with hxN
  set xP : Int := if modeIsTile c.options.incrementMode then k - 1 else k - i
    with hxP
  obtain ⟨kN, hN1, hN2, hN3, hN4, hN5, hN6, hN7, hN8⟩ :=
    nav_commit_good n i c hs hi hin xN
  obtain ⟨kP, hP1, hP2, hP3, hP4, hP5, hP6, hP7, hP8⟩ :=
    nav_commit_good n i c hs hi hin xP
  rw [← hnf] at hN1 hN4 hN5 hN6 hN7
  rw [← hpf] at hP1 hP4 hP5 hP6 hP7
  refine ⟨⟨kN, hN1, hN2, hN3⟩, ⟨kP, hP1, hP2, hP3⟩, ?_, ?_, hN4, hN5,
    hN6.trans hidx, hP4, hP5, hP6.trans hidx, hN7, hP7⟩
  · intro hkmax
    have hkn : kN = (n : Int) - i := by
      rw [hN8, hxN]
      subst hkmax
      cases hmm : c.options.incrementMode <;>
        simp only [hmm, modeIsTile] <;> split_ifs <;> omega
    rw [hN1, hkn, hkmax]
  · intro hk0z
    have hkp : kP = 0 := by
      rw [hP8, hxP]
      subst hk0z
      cases hmm : c.options.incrementMode <;>
        simp only [hmm, modeIsTile] <;> split_ifs <;> omega
    rw [hP1, hkp]

/-- Witness for C2 at the N = 10, I = 3 frame-mode carousel at index 0. -/
theorem c2_nav_clamp_witness :
    (nextFrame carT10).car.state.index = some 3 ∧
    (nextFrame carT10).err = false ∧
    (nextFrame carT10).car.hookCount = carT10.hookCount + 2 ∧
    (prevFrame carT10).car.state.index = some 0 := by
  have h := c2_nav_clamp 10 3 carT10 0
    ⟨by decide, by decide, by decide, by decide, by decide⟩
    (by decide) (by decide) (by decide) (by decide) (by decide)
  exact ⟨by decide, h.2.2.2.2.1, h.2.2.2.2.2.1, h.2.2.2.1 rfl⟩

/-- C3 (confirmed): in frame mode, every commit through `updateState` whose
clamped index equals N − I while tileDelta is positive selects the tile at
`index + tileDelta` as `curTile`; every other frame-mode commit selects the
tile at the committed index.  The concrete N = 10, I = 3 scenario —
frameCount 4, frame sizes [3,3,3,1], tileDelta 2, `next()` index sequence
[3, 6, 7, 7] with the clamped fourth call selecting tile 9 — is checked in
the witness. -/
theorem c3_curTile (n i : Nat) (c : Car) (x k d : Int)
    (hs : Shape n i c) (hm : c.options.incrementMode = Mode.frame)
    (hi : 0 < i) (hin : i ≤ n)
    (hk : k = if (n : Int) - i < x then (n : Int) - i else if x < 0 then 0 else x)
    (hd : d = (i : Int) * ((ceilN n i : Nat) : Int) - (n : Int)) :
    (updateState c (some x) true).car.state.index = some k ∧
    (k = (n : Int) - i ∧ 0 < d →
      (updateState c (some x) true).car.state.curTile = some (k + d).toNat) ∧
    (¬ (k = (n : Int) - i ∧ 0 < d) →
      (updateState c (some x) true).car.state.curTile = some k.toNat) := by
  have hn : 0 < n := lt_of_lt_of_le hi hin
  have hcs := commit_spec n i c hs x k d hd hk _ rfl
  have hd0 : 0 ≤ d := by
    rw [hd]
    have := ceilN_le n i hi
    have hcast : (n : Int) ≤ (i : Int) * ((ceilN n i : Nat) : Int) := by
      exact_mod_cast this
    linarith
  have hkbounds : 0 ≤ k ∧ k ≤ (n : Int) - i := by
    have hin' : (i : Int) ≤ (n : Int) := by exact_mod_cast hin
    rw [hk]; split_ifs <;> omega
  refine ⟨hcs.1, ?_, ?_⟩
  · intro ⟨hke, hdpos⟩
    have hct := hcs.2.2.2.1
    rw [if_pos (by simp [hke, hm, modeIsFrame, hdpos.ne'])] at hct
    rw [hct]
    apply jindex_range
    · have hmul : (i : Int) * 1 ≤ (i : Int) * ((ceilN n i : Nat) : Int) := by
        apply mul_le_mul_of_nonneg_left
        · exact_mod_cast ceilN_pos n i hn hi
        · positivity
      rw [hke, hd]; linarith
    · have hlt' : (i : Int) * ((ceilN n i : Nat) : Int) < (n : Int) + i := by
        exact_mod_cast ceilN_lt n i hi
      rw [hke, hd]; linarith
  · intro hnot
    have hct := hcs.2.2.2.1
    rw [if_neg ?_] at hct
    · rw [hct]
      apply jindex_range hkbounds.1
      have hi' : (0 : Int) < (i : Int) := by exact_mod_cast hi
      linarith [hkbounds.2]
    · simp only [Bool.and_eq_true, beq_iff_eq, bne_iff_ne, ne_eq, not_and]
      intro ⟨hke, hdne⟩ _
      exact hnot ⟨hke, lt_of_le_of_ne hd0 (Ne.symm hdne)⟩

/-- Witness for C3: the spec scenario N = 10, I = 3 in frame mode.  Four
`next()` calls from index 0 commit [3, 6, 7, 7]; the fourth, clamped call
selects tile 9 (= index 7 + tileDelta 2) as `curTile`. -/
theorem c3_curTile_witness :
    carT10a.state.index = some 3 ∧ carT10b.state.index = some 6 ∧
    carT10c.state.index = some 7 ∧
    (nextFrame carT10c).car.state.index = some 7 ∧
    (nextFrame carT10c).car.state.curTile = some 9 := by
  have h := (c3_curTile 10 3 carT10c 10 7 2
    ⟨by decide, by decide, by decide, by decide, by decide⟩
    (by decide) (by decide) (by decide) (by decide) (by decide)).2.1
    ⟨by decide, by decide⟩
  have hnf : nextFrame carT10c = updateState carT10c (some 10) true := by decide
  refine ⟨by decide, by decide, by decide, ?_, ?_⟩
  · rw [hnf]
    have h1 := (c3_curTile 10 3 carT10c 10 7 2
      ⟨by decide, by decide, by decide, by decide, by decide⟩
      (by decide) (by decide) (by decide) (by decide) (by decide)).1
    rw [h1]
  · rw [hnf]
    simpa using h

/-- C4 counterexample: with N = 10, I = 3 the frame count is 4 and
`jumpToFrame(4)` commits index 7 — not `max(0, (4−1)·3) = 9` as claimed,
because `updateState` clamps the candidate to `N − I`.  Repeating
`jumpToFrame(4)` is then not a strict no-op either: the guard compares the
unclamped candidate 9 with the committed index 7, so the repeat call
re-commits and fires the hooks again (hook count 4 after two calls). -/
theorem c4_cex :
    carT10.state.curFrameLength = some 4 ∧
    ((4 : Int) - 1) * 3 = 9 ∧
    (jumpToFrame carT10 (some 4)).car.state.index = some 7 ∧
    (jumpToFrame (jumpToFrame carT10 (some 4)).car (some 4)).car.hookCount = 4 ∧
    (jumpToFrame carT10 (some 4)).car.hookCount = 2 := by decide

/-- C4 (amended): for every f in [1, frameCount], `jumpToFrame(f)` leaves the
index at `min((f−1)·I, N−I)` (committing it when it differs from the
current index); the call is a strict no-op — carousel unchanged, no hooks —
exactly when the unclamped candidate `(f−1)·I` equals the current index;
consequently a repeat call with the same f is a strict no-op when
`(f−1)·I ≤ N−I`, but when `(f−1)·I > N−I` (the last frame of a carousel
with positive tileDelta) every repeat call re-commits and fires the hooks
again.  `jumpToFrame(n)` with `n` exceeding frameCount is a strict no-op. -/
theorem c4_jump (n i : Nat) (c : Car) (f : Nat) (k cand : Int)
    (hs : Shape n i c) (hi : 0 < i) (hin : i ≤ n)
    (hf1 : 1 ≤ f) (hf2 : f ≤ ceilN n i)
    (hidx : c.state.index = some k) (hk0 : 0 ≤ k) (hk1 : k ≤ (n : Int) - i)
    (hcand : cand = ((f : Int) - 1) * i) :
    ((jumpToFrame c (some (f : Int))).car.state.index
        = some (min cand ((n : Int) - i))) ∧
    (cand = k → jumpToFrame c (some (f : Int)) = ⟨c, false⟩) ∧
    (cand ≠ k →
      (jumpToFrame c (some (f : Int))).err = false ∧
      (jumpToFrame c (some (f : Int))).car.hookCount = c.hookCount + 2 ∧
      Shape n i (jumpToFrame c (some (f : Int))).car) ∧
    (cand ≠ k → cand ≤ (n : Int) - i →
      jumpToFrame (jumpToFrame c (some (f : Int))).car (some (f : Int))
        = ⟨(jumpToFrame c (some (f : Int))).car, false⟩) ∧
    (cand ≠ k → (n : Int) - i < cand →
      (jumpToFrame (jumpToFrame c (some (f : Int))).car
          (some (f : Int))).car.hookCount = c.hookCount + 4) ∧
    (∀ g : Int, ((ceilN n i : Nat) : Int) < g →
      jumpToFrame c (some g) = ⟨c, false⟩) := by
  have hn : 0 < n := lt_of_lt_of_le hi hin
  have hf1' : (1 : Int) ≤ (f : Int) := by exact_mod_cast hf1
  have hi0' : (0 : Int) ≤ (i : Int) := by positivity
  have hf0 : 0 ≤ ((f : Int) - 1) * i := mul_nonneg (by linarith) hi0'
  have hcand0 : 0 ≤ cand := hcand ▸ hf0
  have hj := jumpToFrame_int n i c hs (f : Int) k hidx hf0
  rw [← hcand] at hj
  have hf2' : ¬ (((ceilN n i : Nat) : Int) < (f : Int)) := by
    exact_mod_cast not_lt.mpr hf2
  have hgall : ∀ g : Int, ((ceilN n i : Nat) : Int) < g →
      jumpToFrame c (some g) = ⟨c, false⟩ := by
    intro g hg
    have hfcpos : (1 : Int) ≤ ((ceilN n i : Nat) : Int) := by
      exact_mod_cast ceilN_pos n i hn hi
    have hg0 : 0 ≤ (g - 1) * (i : Int) := mul_nonneg (by linarith) hi0'
    have hjg := jumpToFrame_int n i c hs g k hidx hg0
    rw [hjg, if_pos (by simp [hg])]
  by_cases hck : cand = k
  · have hnoop : jumpToFrame c (some (f : Int)) = ⟨c, false⟩ := by
      rw [hj, if_pos (by simp [hck])]
    refine ⟨?_, fun _ => hnoop, fun hne => absurd hck hne,
      fun hne _ => absurd hck hne, fun hne _ => absurd hck hne, hgall⟩
    rw [hnoop]
    show c.state.index = _
    rw [min_eq_left (by rw [hck]; exact hk1), hidx, hck]
  · have hjj : jumpToFrame c (some (f : Int)) = updateState c (some cand) true := by
      rw [hj, if_neg (by simp [hck, hf2'])]
    obtain ⟨k', h1, h2, h3, h4, h5, h6, h7, h8⟩ :=
      nav_commit_good n i c hs hi hin cand
    rw [← hjj] at h1 h4 h5 h6 h7
    have hk'min : k' = min cand ((n : Int) - i) := by
      rw [h8]
      rcases le_or_lt cand ((n : Int) - i) with hle2 | hlt2
      · rw [if_neg (not_lt.mpr hle2), if_neg (not_lt.mpr hcand0),
          min_eq_left hle2]
      · rw [if_pos hlt2, min_eq_right (le_of_lt hlt2)]
    refine ⟨by rw [h1, hk'min], fun hcke => absurd hcke hck,
      fun _ => ⟨h4, h5, h7⟩, ?_, ?_, hgall⟩
    · intro _ hle2
      have hidx1 : (jumpToFrame c (some (f : Int))).car.state.index = some cand := by
        rw [h1, hk'min, min_eq_left hle2]
      have hj2 := jumpToFrame_int n i (jumpToFrame c (some (f : Int))).car h7
        (f : Int) cand hidx1 hf0
      rw [← hcand] at hj2
      rw [hj2, if_pos (by simp)]
    · intro _ hlt2
      have hidx1 : (jumpToFrame c (some (f : Int))).car.state.index
          = some ((n : Int) - i) := by
        rw [h1, hk'min, min_eq_right (le_of_lt hlt2)]
      have hj2 := jumpToFrame_int n i (jumpToFrame c (some (f : Int))).car h7
        (f : Int) ((n : Int) - i) hidx1 hf0
      rw [← hcand] at hj2
      have hne2 : ¬ (cand = (n : Int) - i) := by omega
      rw [hj2, if_neg (by simp [hne2, hf2'])]
      obtain ⟨k2, g1, g2, g3, g4, g5, g6, g7, g8⟩ :=
        nav_commit_good n i (jumpToFrame c (some (f : Int))).car h7 hi hin cand
      rw [g5, h5]

/-- Witness for C4: N = 10, I = 3 frame-mode carousel at index 0,
jumping to frame 2 (candidate 3): the jump commits index 3 and a repeat
call with the same frame number is a strict no-op. -/
theorem c4_jump_witness :
    (jumpToFrame carT10 (some ((2 : Nat) : Int))).car.state.index = some 3 ∧
    (jumpToFrame carT10 (some ((2 : Nat) : Int))).err = false ∧
    jumpToFrame (jumpToFrame carT10 (some ((2 : Nat) : Int))).car
        (some ((2 : Nat) : Int))
      = ⟨(jumpToFrame carT10 (some ((2 : Nat) : Int))).car, false⟩ := by
  have h := c4_jump 10 3 carT10 2 0 3
    ⟨by decide, by decide, by decide, by decide, by decide⟩
    (by decide) (by decide) (by decide) (by decide) (by decide) (by decide)
    (by decide) (by decide)
  exact ⟨by simpa using h.1, (h.2.2.1 (by decide)).1,
    h.2.2.2.1 (by decide) (by decide)⟩

/-- C7 counterexample: on a freshly initialized three-tile carousel (index
already 0), `reset()` runs the full commit — it fires the hooks (count 2)
and overwrites `prevTile` — while `jumpToFrame(1)` is a strict no-op that
changes nothing and fires nothing.  The two operations are therefore not
equivalent at index 0. -/
theorem c7_cex :
    carT3.hookCount = 0 ∧
    (reset carT3).car.hookCount = 2 ∧
    (reset carT3).car.state.prevTile = some 0 ∧
    carT3.state.prevTile = none ∧
    jumpToFrame carT3 (some 1) = ⟨carT3, false⟩ := by decide

/-- C7 (amended): `reset()` always commits index 0 and runs the full commit
sequence (hooks fire) even when the index is already 0.  It coincides with
`jumpToFrame(1)` exactly when the current index is nonzero; when the index
is already 0, `jumpToFrame(1)` is a strict no-op while `reset()` still
re-commits. -/
theorem c7_reset (n i : Nat) (c : Car) (k : Int)
    (hs : Shape n i c) (hi : 0 < i) (hin : i ≤ n)
    (hidx : c.state.index = some k) (hk0 : 0 ≤ k) (hk1 : k ≤ (n : Int) - i) :
    (reset c).car.state.index = some 0 ∧
    (reset c).err = false ∧
    (reset c).car.hookCount = c.hookCount + 2 ∧
    (k ≠ 0 → reset c = jumpToFrame c (some 1)) ∧
    (k = 0 → jumpToFrame c (some 1) = ⟨c, false⟩) := by
  have hn : 0 < n := lt_of_lt_of_le hi hin
  have hin' : (i : Int) ≤ (n : Int) := by exact_mod_cast hin
  obtain ⟨k', h1, h2, h3, h4, h5, h6, h7, h8⟩ :=
    nav_commit_good n i c hs hi hin 0
  have hk'0 : k' = 0 := by
    rw [h8]
    split_ifs <;> omega
  have hf0 : 0 ≤ ((1 : Int) - 1) * (i : Int) := by simp
  have hj := jumpToFrame_int n i c hs 1 k hidx hf0
  have he0 : ((1 : Int) - 1) * (i : Int) = 0 := by ring
  rw [he0] at hj
  have hfcpos : ¬ (((ceilN n i : Nat) : Int) < (1 : Int)) := by
    have : (1 : Int) ≤ ((ceilN n i : Nat) : Int) := by
      exact_mod_cast ceilN_pos n i hn hi
    omega
  refine ⟨by rw [show (reset c) = updateState c (some 0) true from rfl, h1, hk'0],
    h4, h5, ?_, ?_⟩
  · intro hkne
    have : ¬ ((0 : Int) = k) := fun hc => hkne hc.symm
    rw [hj, if_neg (by simp [this, hfcpos])]
    rfl
  · intro hkz
    rw [hj, if_pos (by simp [hkz])]

/-- Witness for C7: at the N = 10, I = 3 carousel after one `next()` (index
3 ≠ 0), `reset()` commits index 0 and equals `jumpToFrame(1)` exactly. -/
theorem c7_reset_witness :
    (reset carT10a).car.state.index = some 0 ∧
    (reset carT10a).err = false ∧
    reset carT10a = jumpToFrame carT10a (some 1) := by
  have h := c7_reset 10 3 carT10a 3
    ⟨by decide, by decide, by decide, by decide, by decide⟩
    (by decide) (by decide) (by decide) (by decide) (by decide)
  exact ⟨h.1, h.2.1, h.2.2.2.1 (by decide)⟩

/-- C8 counterexample: with N = 1 < I = 2 both affordances are disabled at
build time as the claim says, but they do not remain disabled: a `next()`
call commits the negative index N − I = −1, after which `updateNavigation`
re-enables the prev button (index ≠ 0). -/
theorem c8_cex :
    carSmall.prevBtnDisabled = true ∧
    carSmall.nextBtnDisabled = true ∧
    (nextFrame carSmall).car.state.index = some (-1) ∧
    (nextFrame carSmall).car.prevBtnDisabled = false ∧
    (nextFrame carSmall).car.nextBtnDisabled = true := by decide

/-- C8 (amended): after every commit the prev affordance is disabled iff the
committed index is 0 and the next affordance is disabled iff
`index + increment ≥ curTileLength`; when `curTileLength ≤ increment` both
affordances are disabled at build time — but they do not remain disabled
under every navigation call: on a nonempty carousel with N < I, `next()`
commits the negative index N − I, which re-enables the prev affordance
while next stays disabled. -/
theorem c8_flags (n i : Nat) (hi : 0 < i) :
    (∀ (c : Car) (x : Int), Shape n i c →
      (updateState c (some x) true).car.prevBtnDisabled
        = ((if (n : Int) - i < x then (n : Int) - i else if x < 0 then 0 else x)
            == 0) ∧
      (updateState c (some x) true).car.nextBtnDisabled
        = decide ((n : Int) ≤
            (if (n : Int) - i < x then (n : Int) - i else if x < 0 then 0 else x)
              + i)) ∧
    (∀ (m : Mode) (tiles0 : List TileState) (w h : Int) (c : Car),
      0 < n → n ≤ i → tiles0.length = n →
      initCar ⟨some (i : Int), m⟩ tiles0 w h = Except.ok c →
      c.prevBtnDisabled = true ∧ c.nextBtnDisabled = true) ∧
    (∀ c : Car, Shape n i c → 0 < n → n < i → c.state.index = some 0 →
      (nextFrame c).car.state.index = some ((n : Int) - i) ∧
      (nextFrame c).car.prevBtnDisabled = false ∧
      (nextFrame c).car.nextBtnDisabled = true) := by
  refine ⟨?_, ?_, ?_⟩
  · intro c x hs
    have hcs := commit_spec n i c hs x _ _ rfl rfl _ rfl
    exact ⟨hcs.2.2.2.2.2.2.2.1, hcs.2.2.2.2.2.2.2.2.1⟩
  · intro m tiles0 w h c hn hni hlen hc
    obtain ⟨c', hc', hs', hopts', hidx', hpidx', hct', hpt', hfidx', hfarr',
      hcf', hha', hhk', hpb', hnb', haria'⟩ :=
      initCar_spec n i m tiles0 w h hn hi hlen
    rw [hc] at hc'
    obtain rfl : c = c' := by
      exact (Except.ok.injEq _ _).mp hc'
    refine ⟨hpb', ?_⟩
    rw [hnb']
    simp only [decide_eq_true_eq]
    exact_mod_cast hni
  · intro c hs hn hni hidx
    have hnf := nextFrame_cand c i 0 hs.inc hidx
    set xN : Int := if modeIsTile c.options.incrementMode then 0 + 1 else 0 + i
      with hxN
    have hcs := commit_spec n i c hs xN _ _ rfl rfl _ rfl
    have hclamp : (if (n : Int) - i < xN then (n : Int) - i
        else if xN < 0 then 0 else xN) = (n : Int) - i := by
      rw [hxN]
      have hi' : (0 : Int) < (i : Int) := by exact_mod_cast hi
      have hni' : (n : Int) < (i : Int) := by exact_mod_cast hni
      have hn' : (0 : Int) < (n : Int) := by exact_mod_cast hn
      cases hmm : c.options.incrementMode <;>
        simp only [hmm, modeIsTile] <;> split_ifs <;> omega
    rw [← hnf] at hcs
    refine ⟨?_, ?_, ?_⟩
    · rw [hcs.1, hclamp]
    · rw [hcs.2.2.2.2.2.2.2.1, hclamp]
      have hni' : (n : Int) < (i : Int) := by exact_mod_cast hni
      have hn' : (0 : Int) < (n : Int) := by exact_mod_cast hn
      simp only [beq_eq_false_iff_ne, ne_eq]
      omega
    · rw [hcs.2.2.2.2.2.2.2.2.1, hclamp]
      simp

/-- Witness for C8 at N = 1, I = 2: commit-level flag equations at the
one-tile carousel, both buttons disabled at build time, and prev re-enabled
after `next()`. -/
theorem c8_flags_witness :
    (updateState carSmall (some 2) true).car.prevBtnDisabled
        = (((1 : Int) - 2) == 0) ∧
    carSmall.prevBtnDisabled = true ∧
    (nextFrame carSmall).car.prevBtnDisabled = false := by
  have h := c8_flags 1 2 (by decide)
  have h1 := (h.1 carSmall 2 ⟨by decide, by decide, by decide, by decide, by decide⟩).1
  have h2 := h.2.1 Mode.frame (cleanTiles 1) 5 5 carSmall (by decide) (by decide)
    (by decide) (by rfl)
  have h3 := h.2.2 carSmall ⟨by decide, by decide, by decide, by decide, by decide⟩
    (by decide) (by decide) (by decide)
  refine ⟨?_, h2.1, h3.2.1⟩
  rw [h1]
  decide

/-- C5 counterexample: after normalizing a three-tile carousel, tile 0 is
the current frame and is marked visible, but like every tile it carries
`tabindex = -1` — the very marking the code's own first-run branch uses for
"unfocusable" — and no code path ever removes it.  So the current frame's
tiles are not marked focusable, refuting the claim's "visible and
focusable" half. -/
theorem c5_cex :
    carT3.state.curFrame = some [0] ∧
    (∃ t, carT3.aria.get? 0 = some t ∧ visibleT t ∧ t.tabIdx = some (-1)) ∧
    (∀ t ∈ carT3.aria, t.tabIdx = some (-1)) := by
  refine ⟨by decide,
    ⟨⟨["carousel-tile", "state-visible"], some (-1)⟩, by decide,
      by simp [visibleT], by decide⟩, by decide⟩

/-- C5 (amended): after normalization and after every settled transition,
exactly the tiles of the current frame carry the visible marker and every
other tile carries the hidden marker; all tiles — the current frame's
included — are stamped unfocusable (`tabindex = -1`) once at the first
normalization and never made focusable again; and a tile whose classes
contain the structural spacer marker is never modified by any toggle
operation. -/
theorem c5_aria (n i : Nat) (hn : 0 < n) (hi : 0 < i) :
    (∀ (add : Bool) (ic : List String) (b : Bool) (t : TileState),
      "carousel-tile-spacer" ∈ t.classes → toggleItem add ic b t = t) ∧
    (∀ (m : Mode) (tiles0 : List TileState) (w h : Int) (c : Car),
      tiles0.length = n →
      (∀ j t, tiles0.get? j = some t → clsClean t) →
      initCar ⟨some (i : Int), m⟩ tiles0 w h = Except.ok c →
      AriaInv n i c ∧
      c.state.curFrame = some ((List.range n).take i) ∧
      ∀ j t', c.aria.get? j = some t' →
        (visibleT t' ↔ j ∈ (List.range n).take i) ∧
        (hiddenT t' ↔ j ∉ (List.range n).take i) ∧
        t'.tabIdx = some (-1)) ∧
    (∀ (c : Car) (x : Int), AriaInv n i c →
      ∃ cf, (updateState c (some x) true).car.state.curFrame = some cf ∧
        AriaInv n i (updateState c (some x) true).car ∧
        ∀ j t', (updateState c (some x) true).car.aria.get? j = some t' →
          (visibleT t' ↔ j ∈ cf) ∧ (hiddenT t' ↔ j ∉ cf) ∧
          t'.tabIdx = some (-1)) := by
  refine ⟨fun add ic b t hsp => toggleItem_spacer add ic b t hsp, ?_, ?_⟩
  · intro m tiles0 w h c hlen0 hclean hc
    obtain ⟨c', hc', hs', hopts', hidx', hpidx', hct', hpt', hfidx', hfarr',
      hcf', hha', hhk', hpb', hnb', haria'⟩ :=
      initCar_spec n i m tiles0 w h hn hi hlen0
    rw [hc] at hc'
    obtain rfl : c = c' := (Except.ok.injEq _ _).mp hc'
    have hlen2 : c.aria.length = n := by
      rw [haria', toggleFrom_length, toggleFrom_length, hlen0]
    have hinit := aria_after_init n i tiles0 hlen0 hclean
    have hperT : ∀ j t', c.aria.get? j = some t' →
        TileOk t' ∧ (visibleT t' ↔ j ∈ (List.range n).take i) ∧
        (hiddenT t' ↔ j ∉ (List.range n).take i) ∧ t'.tabIdx = some (-1) := by
      intro j t' hjt
      rw [haria'] at hjt
      exact hinit j t' hjt
    exact ⟨⟨hs', hha', hlen2, fun j t hjt => (hperT j t hjt).1⟩, hcf',
      fun j t' hjt => (hperT j t' hjt).2⟩
  · intro c x hinv
    obtain ⟨hs, hha, hlen, hok⟩ := hinv
    have hcs := commit_spec n i c hs x _ _ rfl rfl _ rfl
    obtain ⟨q1, q2, q3, q4, q5, q6, q7, q8, q9, q10, q11, q12, q13⟩ := hcs
    rw [hha] at q10
    have hlen3 : (updateState c (some x) true).car.aria.length = n := by
      rw [q10, toggleFrom_length, toggleFrom_length, toggleFrom_length, hlen]
    have hper := aria_after_commit n
      (jslice (List.range n)
        (some (if (n : Int) - i < x then (n : Int) - i else if x < 0 then 0 else x))
        (some ((i : Int) + if (n : Int) - i < x then (n : Int) - i
          else if x < 0 then 0 else x)))
      c.aria hlen hok
    refine ⟨_, q5, ⟨q7, q11, hlen3, ?_⟩, ?_⟩
    · intro j t hjt
      rw [q10] at hjt
      exact (hper j t hjt).1
    · intro j t' hjt
      rw [q10] at hjt
      exact (hper j t' hjt).2

/-- Witness for C5 at N = 3, I = 1: the initialized carousel satisfies the
aria invariant with current frame `[0]`, and a commit (to index 1)
maintains it. -/
theorem c5_aria_witness :
    AriaInv 3 1 carT3 ∧
    carT3.state.curFrame = some ((List.range 3).take 1) ∧
    (∃ cf, (updateState carT3 (some 1) true).car.state.curFrame = some cf ∧
      AriaInv 3 1 (updateState carT3 (some 1) true).car) := by
  have h := c5_aria 3 1 (by decide) (by decide)
  have h2 := h.2.1 Mode.frame (cleanTiles 3) 5 5 carT3 (by decide)
    (cleanTiles_clean 3) (by rfl)
  obtain ⟨cf, hcf, hinv2, hper⟩ := h.2.2 carT3 1 h2.1
  exact ⟨h2.1, h2.2.1, ⟨cf, hcf, hinv2⟩⟩

theorem parseIntNum_five_halves : parseIntNum (5 / 2 : ℚ) = 2 := by
  have hnum : (5 / 2 : ℚ).num = 5 := by norm_num
  have hden : (5 / 2 : ℚ).den = 2 := by norm_num
  unfold parseIntNum
  rw [hnum, hden]
  decide

/-- C9 counterexample: `setup` with the non-integer increment 2.5 does not
raise any error — `parseInt` silently truncates it to 2 and setup
completes, producing a working carousel. -/
theorem c9_cex :
    isOkE (setupCar (5 / 2 : ℚ) Mode.frame (cleanTiles 1) 5 5) = true ∧
    (5 / 2 : ℚ).den ≠ 1 ∧
    parseIntNum (5 / 2 : ℚ) = 2 := by
  refine ⟨?_, by norm_num, parseIntNum_five_halves⟩
  show isOkE (initCar ⟨some (parseIntNum (5 / 2 : ℚ)), Mode.frame⟩
    (cleanTiles 1) 5 5) = true
  rw [parseIntNum_five_halves]
  decide

/-- C9 (amended): `setup` performs no validation of the increment: the
option is coerced with `parseInt(·, 10)` and any value whose truncation is
a positive integer — non-integer values such as 2.5 included — is accepted
silently; on a nonempty tile list setup completes without raising and the
carousel runs with the truncated increment. -/
theorem c9_setup (q : ℚ) (m : Mode) (tiles0 : List TileState) (w h : Int)
    (hq : 1 ≤ parseIntNum q) (ht : tiles0 ≠ []) :
    ∃ c, setupCar q m tiles0 w h = Except.ok c ∧
      c.options.increment = some (parseIntNum q) ∧
      c.options.incrementMode = m := by
  have hn0 : 0 < tiles0.length := List.length_pos.mpr ht
  have hi0 : 0 < (parseIntNum q).toNat := by omega
  obtain ⟨c, hc, hs, hopts, _, _, _, _, _, _, _, _, _, _, _⟩ :=
    initCar_spec tiles0.length (parseIntNum q).toNat m tiles0 w h hn0 hi0 rfl
  have hiq : (((parseIntNum q).toNat : Nat) : Int) = parseIntNum q :=
    Int.toNat_of_nonneg (by omega)
  refine ⟨c, ?_, ?_, ?_⟩
  · show initCar ⟨some (parseIntNum q), m⟩ tiles0 w h = Except.ok c
    rw [← hiq]
    exact hc
  · rw [hopts]
    show some (((parseIntNum q).toNat : Nat) : Int) = some (parseIntNum q)
    rw [hiq]
  · rw [hopts]

/-- Witness for C9 at increment 2.5 on a one-tile carousel. -/
theorem c9_setup_witness :
    (1 : Int) ≤ parseIntNum (5 / 2 : ℚ) ∧
    ∃ c, setupCar (5 / 2 : ℚ) Mode.frame (cleanTiles 1) 5 5 = Except.ok c ∧
      c.options.increment = some (parseIntNum (5 / 2 : ℚ)) ∧
      c.options.incrementMode = Mode.frame :=
  ⟨by rw [parseIntNum_five_halves]; decide,
    c9_setup (5 / 2 : ℚ) Mode.frame (cleanTiles 1) 5 5
      (by rw [parseIntNum_five_halves]; decide) (by decide)⟩

/-- C10 (confirmed): for every carousel, calling `jumpToFrame` with an
argument that does not parse as an integer (modelled as the `NaN` result of
`parseInt`) is not rejected by the no-op guard — every comparison against
`NaN` is false — and a state with `index = NaN` is committed: the bounds
invariant `0 ≤ index ≤ max(0, N − I)` fails because the committed index is
not an integer at all.  The pre-frame-change hook fires (the commit path
ran), and the transition then aborts with a `TypeError` when
`curTile.focus()` is called on the `undefined` tile `tileArr[NaN]`, leaving
the `NaN` state committed. -/
theorem c10_nan_jump (c : Car) :
    (jumpToFrame c none).car.state.index = none ∧
    (jumpToFrame c none).car.hookCount = c.hookCount + 1 ∧
    (jumpToFrame c none).err = true ∧
    ∀ j : Int, ¬ ((jumpToFrame c none).car.state.index = some j) := by
  have h1 : committedIndex c none = none := by
    unfold committedIndex
    simp
  have hct : (commitCar c none).state.curTile = none := by
    rw [commitCar_state, committedState_curTile, h1]
    simp
  have hr : jumpToFrame c none = animate (commitCar c none) := by
    unfold jumpToFrame
    simp [updateState_eq]
  have ha := animate_noTile (commitCar c none) _ (committedState_curFrame c none)
    hct
  rw [hr, ha]
  refine ⟨by simp [h1], rfl, rfl, ?_⟩
  intro j
  simp [h1]

end Carousel
